import Mathlib

/-!
Shallow embedding of the WaveEnv backend simulation engine
(src/backend/app/services, src/backend/app/api, src/backend/app/utils),
together with proofs that settle the frozen claims about the
natural-language specification.

Modelling conventions:
* Python floats are idealized as elements of an arbitrary linear ordered
  field `K`; theorems instantiate to `ℝ`, witnesses to `ℚ`.
* The transcendental library functions `math.sin`, `math.cos`, `math.sqrt`
  and the constant `math.pi` are passed as explicit parameters
  (`sin cos sqrt : K → K`, `pi : K`); a theorem proved for every
  interpretation of these parameters holds in particular for the real
  interpretation.  `create_grid`, whose claims depend on the actual value
  of the square root, is embedded at `K := ℝ` with `Real.sqrt`.
* Numeric literals such as `1e-9` are written as exact rationals.
* Fallible accesses keep the source's reachability assumptions; list
  indexing that the source guarantees in range is embedded with `getD`
  together with hypotheses where a claim needs them.
-/

namespace WaveEnv

variable {K : Type} [LinearOrderedField K]

/-- Rectangular lon/lat/depth region (schemas/base.py, class Region). -/
structure Region (K : Type) where
  lon_min : K
  lat_min : K
  depth_min : K
  lon_max : K
  lat_max : K
  depth_max : K
  deriving DecidableEq

/-- Spatial discretization configuration (schemas/base.py, class DiscretizationConfig).
`max_points` is a Python int, embedded as `ℕ`. -/
structure DiscretizationConfig (K : Type) where
  dx : K
  dy : K
  max_points : ℕ
  deriving DecidableEq

/-- Time discretization configuration (schemas/base.py, class TimeConfig). -/
structure TimeConfig (K : Type) where
  dt_backend : K
  T_total : Option K
  cache_retention_time : Option K
  deriving DecidableEq

/-- One discrete wave component (models/spectrum.py, class WaveComponent). -/
structure WaveComponent (K : Type) where
  frequency : K
  direction_deg : K
  amplitude : K
  phase : K
  wave_number : K
  deriving DecidableEq

/-- Discretized directional wave spectrum (models/spectrum.py, class WaveSpectrum). -/
structure WaveSpectrum (K : Type) where
  components : List (WaveComponent K)
  Hs : K
  Tp : K
  main_direction_deg : K
  deriving DecidableEq

/-- One spatial grid point (models/grid.py, class GridPoint). -/
structure GridPoint (K : Type) where
  x : K
  y : K
  lon : K
  lat : K
  depth : K
  deriving DecidableEq

/-- One per-point result inside a frame (schemas/data.py, class WavePoint). -/
structure WavePoint (K : Type) where
  lon : K
  lat : K
  wave_height : K
  deriving DecidableEq

/-- One produced frame (schemas/data.py, class SimulationFrame). -/
structure SimulationFrame (K : Type) where
  time : K
  region : Region K
  points : List (WavePoint K)
  deriving DecidableEq

/-- Dense wave-height grid (models/grid.py, class WaveGrid): per-time rows of
per-point heights. -/
structure WaveGrid (K : Type) where
  grid_points : List (GridPoint K)
  wave_heights : List (List K)
  times : List K
  deriving DecidableEq

/-- Contribution of one spectrum component to the height at one grid point at
time `t`: `A·cos(kx·x + ky·y − ω·t + φ)` with `kx = k·sin(rad(dir))`,
`ky = k·cos(rad(dir))`, `ω = 2π·f` — the loop body shared by
`_initialize_wave_field` and `_advance_wave_field`
(services/simulation_stream.py). -/
def componentHeight (sin cos : K → K) (pi : K)
    (c : WaveComponent K) (p : GridPoint K) (t : K) : K :=
  let k := c.wave_number
  let direction_rad := c.direction_deg * pi / 180
  let kx := k * sin direction_rad
  let ky := k * cos direction_rad
  let omega := 2 * pi * c.frequency
  let k_dot_r := kx * p.x + ky * p.y
  c.amplitude * cos (k_dot_r - omega * t + c.phase)

/-- Closed-form superposed wave field at time `t`:
`η(x,y,t) = Σ_c A_c·cos(kx_c·x + ky_c·y − ω_c·t + φ_c)` at every grid point.
This is the direct (stateless) evaluation the spec's §4.3 equation describes;
the per-component accumulation of the Python double loop is the list sum. -/
def waveFieldAt (sin cos : K → K) (pi : K)
    (spectrum : WaveSpectrum K) (grid_points : List (GridPoint K)) (t : K) :
    List K :=
  grid_points.map fun p =>
    (spectrum.components.map fun c => componentHeight sin cos pi c p t).sum

/-- Embedding of `_initialize_wave_field` (services/simulation_stream.py,
lines 328-348): heights at `t = 0`, accumulated component by component; the
source's cosine argument is literally `k_dot_r - omega*0.0 + phase`. -/
def _initialize_wave_field (sin cos : K → K) (pi : K)
    (spectrum : WaveSpectrum K) (grid_points : List (GridPoint K)) : List K :=
  grid_points.map fun p =>
    (spectrum.components.map fun c => componentHeight sin cos pi c p 0).sum

/-- Embedding of `_advance_wave_field` (services/simulation_stream.py,
lines 351-387; identical to `advance_wave_field` in services/simulation.py,
lines 71-111): given the current heights `wave_height`, the spectrum, the grid,
`dt` and `current_time`, it fills a fresh zero array and accumulates
`A·cos(k_dot_r − ω·(current_time + dt) + φ)` per component and point.  The
`wave_height` argument appears in the source signature but is never read. -/
def _advance_wave_field (sin cos : K → K) (pi : K)
    (wave_height : List K) (spectrum : WaveSpectrum K)
    (grid_points : List (GridPoint K)) (dt current_time : K) : List K :=
  grid_points.map fun p =>
    (spectrum.components.map fun c =>
      componentHeight sin cos pi c p (current_time + dt)).sum

/-- Embedding of `_create_frame` (services/simulation_stream.py,
lines 390-406): pairs each grid point with its height. -/
def _create_frame (time : K) (wave_height : List K)
    (grid_points : List (GridPoint K)) (region : Region K) :
    SimulationFrame K :=
  { time := time
    region := region
    points := (grid_points.zip wave_height).map fun pr =>
      { lon := pr.1.lon, lat := pr.1.lat, wave_height := pr.2 } }

/-- Floating-accumulation tolerance `1e-9` used by the stepper's time-limit
checks (services/simulation_stream.py). -/
def epsLimit (K : Type) [LinearOrderedField K] : K := 1 / 1000000000

/-- Test `self.time_limit is not None and t > self.time_limit + 1e-9`
(services/simulation_stream.py, line 119). -/
def exceedsLimit (time_limit : Option K) (t : K) : Bool :=
  match time_limit with
  | some L => decide (L + epsLimit K < t)
  | none => false

/-- Test `self.time_limit is not None and t >= self.time_limit - 1e-9`
(services/simulation_stream.py, lines 145-148). -/
def reachedLimit (time_limit : Option K) (t : K) : Bool :=
  match time_limit with
  | some L => decide (L - epsLimit K ≤ t)
  | none => false

/-- Mutable state of `SimulationStepper` (services/simulation_stream.py,
`__init__`, lines 39-88).  The `asyncio` future/task slots are not part of the
state: the single-slot precompute pipeline is embedded synchronously by
`get_precomputed_frame` below, which performs the background computation and
the commit in one step. -/
structure SimulationStepper (K : Type) where
  region : Region K
  grid_points : List (GridPoint K)
  spectrum : WaveSpectrum K
  current_wave_height : List K
  dt : K
  time_limit : Option K
  current_time : K
  current_time_idx : ℕ
  is_completed : Bool
  is_stopped : Bool
  deriving DecidableEq

/-- Freshly constructed stepper (`__init__`): `current_wave_height` is the
`t = 0` field, `current_time = 0.0`, `current_time_idx = 0`, both status flags
false.  The grid comes from `create_grid` and the spectrum from
`generate_spectrum` (whose random phase draws are the caller's input here). -/
def mkStepper (sin cos : K → K) (pi : K) (region : Region K)
    (grid_points : List (GridPoint K)) (spectrum : WaveSpectrum K)
    (time_config : TimeConfig K) : SimulationStepper K :=
  { region := region
    grid_points := grid_points
    spectrum := spectrum
    current_wave_height := _initialize_wave_field sin cos pi spectrum grid_points
    dt := time_config.dt_backend
    time_limit := time_config.T_total
    current_time := 0
    current_time_idx := 0
    is_completed := false
    is_stopped := false }

/-- Embedding of `SimulationStepper.step` (services/simulation_stream.py,
lines 90-151), with the state passed explicitly: returns the produced frame
(or `none`) together with the post-call stepper state.  The source never
raises: every branch returns. -/
def SimulationStepper.step (sin cos : K → K) (pi : K)
    (s : SimulationStepper K) :
    Option (SimulationFrame K) × SimulationStepper K :=
  if s.is_completed || s.is_stopped then (none, s)
  else if s.current_time_idx = 0 then
    (some (_create_frame 0 s.current_wave_height s.grid_points s.region),
      { s with current_time_idx := s.current_time_idx + 1 })
  else
    let next_time := s.current_time + s.dt
    if exceedsLimit s.time_limit next_time then
      (none, { s with is_completed := true })
    else
      let new_height := _advance_wave_field sin cos pi s.current_wave_height
        s.spectrum s.grid_points s.dt s.current_time
      let frame := _create_frame next_time new_height s.grid_points s.region
      let s1 := { s with current_wave_height := new_height,
                         current_time := next_time,
                         current_time_idx := s.current_time_idx + 1 }
      (some frame,
        if reachedLimit s.time_limit next_time then
          { s1 with is_completed := true }
        else s1)

/-- Embedding of `SimulationStepper.stop` (services/simulation_stream.py,
lines 163-169): sets both terminal flags.  Cancelling the in-flight
precompute task has no separate effect in the synchronous pipeline model. -/
def SimulationStepper.stop (s : SimulationStepper K) : SimulationStepper K :=
  { s with is_stopped := true, is_completed := true }

/-- Embedding of the single-slot precompute pipeline,
`precompute_next_frame`'s `compute_frame` (services/simulation_stream.py,
lines 189-231) composed with the committing part of `get_precomputed_frame`
(lines 246-294), collapsed into one synchronous step: compute the next frame
from the current committed state, then commit (`current_wave_height`,
`current_time`, `current_time_idx`, completion flag) and return the frame.
Rescheduling the following precomputation has no separate effect here. -/
def SimulationStepper.get_precomputed_frame (sin cos : K → K) (pi : K)
    (s : SimulationStepper K) :
    Option (SimulationFrame K) × SimulationStepper K :=
  if s.is_completed || s.is_stopped then
    (none, { s with is_completed := true })
  else
    let next_time :=
      if s.current_time_idx = 0 then s.dt else s.current_time + s.dt
    if exceedsLimit s.time_limit next_time then
      (none, { s with is_completed := true })
    else
      let t_used := if 0 < s.current_time_idx then s.current_time else 0
      let new_height := _advance_wave_field sin cos pi s.current_wave_height
        s.spectrum s.grid_points s.dt t_used
      let frame := _create_frame next_time new_height s.grid_points s.region
      let s1 := { s with current_wave_height := new_height,
                         current_time := next_time,
                         current_time_idx := s.current_time_idx + 1 }
      (some frame,
        if reachedLimit s.time_limit next_time then
          { s1 with is_completed := true }
        else s1)

/-- Task status values (schemas/data.py, SimulationStatus). -/
inductive SimulationStatus where
  | pending
  | running
  | paused
  | completed
  | stopped
  | failed
  deriving DecidableEq

/-- One read of the task's control flags (`task.stop_requested`,
`task.clock_paused`), which HTTP handlers mutate concurrently with the
driving loop. -/
structure FlagRead where
  stop_requested : Bool
  clock_paused : Bool
  deriving DecidableEq

/-- External flag values observed during one driving-loop iteration: `first`
is the re-fetch at the top of the `while True` body
(api/simulation.py, lines 106-125) and `second` the re-fetch after the
pacing sleep (lines 144-155). -/
structure LoopInput where
  first : FlagRead
  second : FlagRead
  deriving DecidableEq

/-- State the driving loop `_run_simulation_stream` owns: the stepper, the
task's frame list and dense grid, the task status, and whether the loop has
exited. -/
structure LoopState (K : Type) where
  stepper : SimulationStepper K
  frames : List (SimulationFrame K)
  wave_grid : Option (WaveGrid K)
  status : SimulationStatus
  done : Bool
  deriving DecidableEq

/-- Embedding of lines 168-186 of api/simulation.py: append the produced
frame; then, if `cache_retention_time` is configured, drop every frame with
`time < frame.time - cache_retention_time` (the retention threshold is
computed from the just-appended frame's time). -/
def appendFrameWithRetention (frames : List (SimulationFrame K))
    (frame : SimulationFrame K) (retention : Option K) :
    List (SimulationFrame K) :=
  match retention with
  | some R => (frames ++ [frame]).filter fun f => decide (frame.time - R ≤ f.time)
  | none => frames ++ [frame]

/-- Embedding of one iteration of the `while True` driving loop
(api/simulation.py, lines 105-186).  `_cleanup_task_resources`
(lines 29-50) clears the frame list and the dense grid on stop.  A pause
observed at either check leaves all cached data untouched; a pause observed
at the post-sleep check additionally discards the just-collected frame
(the source `continue`s without appending it). -/
def loopIteration (sin cos : K → K) (pi : K) (retention : Option K)
    (inp : LoopInput) (st : LoopState K) : LoopState K :=
  if st.done then st
  else if inp.first.stop_requested then
    { st with stepper := st.stepper.stop, frames := [], wave_grid := none,
              status := .stopped, done := true }
  else if st.stepper.is_completed && st.stepper.time_limit.isSome then
    { st with status := .completed, done := true }
  else if inp.first.clock_paused then st
  else
    let pr := st.stepper.get_precomputed_frame sin cos pi
    if inp.second.stop_requested then
      { st with stepper := pr.2.stop, frames := [], wave_grid := none,
                status := .stopped, done := true }
    else if inp.second.clock_paused then { st with stepper := pr.2 }
    else
      match pr.1 with
      | none =>
        if pr.2.is_completed && pr.2.time_limit.isSome then
          { st with stepper := pr.2, status := .completed, done := true }
        else { st with stepper := pr.2, done := true }
      | some frame =>
        { st with stepper := pr.2,
                  frames := appendFrameWithRetention st.frames frame retention }

/-- State after the pre-loop prologue (api/simulation.py, lines 82-103):
the stepper is created, `step()` is called once for the `t = 0` frame, and
that frame (when produced) is appended; the task was just set RUNNING. -/
def initLoopState (sin cos : K → K) (pi : K) (region : Region K)
    (grid_points : List (GridPoint K)) (spectrum : WaveSpectrum K)
    (time_config : TimeConfig K) : LoopState K :=
  let s0 := mkStepper sin cos pi region grid_points spectrum time_config
  let pr := s0.step sin cos pi
  { stepper := pr.2
    frames := match pr.1 with
      | some f => [f]
      | none => []
    wave_grid := none
    status := .running
    done := false }

/-- Driving loop run over a finite schedule of externally observed flag
values, one `LoopInput` per iteration. -/
def runLoop (sin cos : K → K) (pi : K) (retention : Option K)
    (inputs : List LoopInput) (st : LoopState K) : LoopState K :=
  inputs.foldl (fun acc inp => loopIteration sin cos pi retention inp acc) st

/-- Embedding of `lonlat_to_xy` (utils/coordinate.py, lines 20-52):
equirectangular conversion of (lon, lat) to local planar meters relative to
(origin_lon, origin_lat), `x = Δlon·R·cos(avg_lat)`, `y = Δlat·R`,
`R = 6 371 000`; `math.radians d = d·π/180`. -/
def lonlat_to_xy (cos : K → K) (pi : K) (lon lat origin_lon origin_lat : K) :
    K × K :=
  let lon_rad := lon * pi / 180
  let lat_rad := lat * pi / 180
  let origin_lon_rad := origin_lon * pi / 180
  let origin_lat_rad := origin_lat * pi / 180
  let dlon := lon_rad - origin_lon_rad
  let dlat := lat_rad - origin_lat_rad
  let avg_lat_rad := (lat_rad + origin_lat_rad) / 2
  (dlon * 6371000 * cos avg_lat_rad, dlat * 6371000)

/-- Embedding of `np.linspace a b n`: `n` evenly spaced samples from `a` to
`b` inclusive (`[a]` for `n = 1`, `[]` for `n = 0`). -/
def linspace (a b : K) (n : ℕ) : List K :=
  (List.range n).map fun i =>
    if n ≤ 1 then a else a + (b - a) * (i : K) / ((n : K) - 1)

/-- Naive per-dimension grid counts of `create_grid` before the `max_points`
check (utils/coordinate.py, lines 98-105): `max(1, int(range/step) + 1)` per
dimension.  Python `int()` truncates toward zero and the operands are
nonnegative for valid inputs, so it is the floor; `Int.toNat` renders the
truncation-toward-zero clamp for the (invalid-input) negative case. -/
noncomputable def naiveGridCounts (region : Region ℝ) (config : DiscretizationConfig ℝ) :
    ℕ × ℕ :=
  (max 1 ((⌊(region.lon_max - region.lon_min) / config.dx⌋).toNat + 1),
   max 1 ((⌊(region.lat_max - region.lat_min) / config.dy⌋).toNat + 1))

/-- Per-dimension grid counts after the `max_points` downscaling
(utils/coordinate.py, lines 107-113): if the naive product exceeds
`max_points`, both dimensions are rescaled by
`sqrt(max_points/total_points)` and clamped below at 1. -/
noncomputable def scaledGridCounts (region : Region ℝ) (config : DiscretizationConfig ℝ) :
    ℕ × ℕ :=
  let n0 := naiveGridCounts region config
  let total0 := n0.1 * n0.2
  if config.max_points < total0 then
    (max 1 ((⌊(n0.1 : ℝ) *
        Real.sqrt ((config.max_points : ℝ) / (total0 : ℝ))⌋).toNat),
     max 1 ((⌊(n0.2 : ℝ) *
        Real.sqrt ((config.max_points : ℝ) / (total0 : ℝ))⌋).toNat))
  else n0

/-- Embedding of `create_grid` (utils/coordinate.py, lines 85-141): lat-major
lattice of lon/lat samples with local coordinates about the region centroid
and a linear depth blend.  This definition is fixed at `K := ℝ` because the
`max_points` downscaling uses the actual `math.sqrt`. -/
noncomputable def create_grid (region : Region ℝ) (config : DiscretizationConfig ℝ) :
    List (GridPoint ℝ) :=
  let lon_range := region.lon_max - region.lon_min
  let lat_range := region.lat_max - region.lat_min
  let n := scaledGridCounts region config
  let lon_values := linspace region.lon_min region.lon_max n.1
  let lat_values := linspace region.lat_min region.lat_max n.2
  let origin_lon := (region.lon_min + region.lon_max) / 2
  let origin_lat := (region.lat_min + region.lat_max) / 2
  let depth_range := region.depth_max - region.depth_min
  lat_values.flatMap fun lat =>
    lon_values.map fun lon =>
      let xy := lonlat_to_xy Real.cos Real.pi lon lat origin_lon origin_lat
      let lonRatio := if 0 < lon_range then (lon - region.lon_min) / lon_range
        else 1 / 2
      let latRatio := if 0 < lat_range then (lat - region.lat_min) / lat_range
        else 1 / 2
      let depth := region.depth_min + depth_range * (lonRatio + latRatio) / 2
      { x := xy.1, y := xy.2, lon := lon, lat := lat, depth := depth }

/-- Embedding of `linear_interpolation` (utils/numerical.py, lines 59-79). -/
def linear_interpolation (t t1 v1 t2 v2 : K) : K :=
  if |t2 - t1| < 1 / 10000000000 then v1
  else v1 + (t - t1) / (t2 - t1) * (v2 - v1)

/-- First index of a minimal element (`np.argmin`), `0` on the empty list. -/
def argminIdx (l : List K) : ℕ :=
  ((l.enum.foldl (fun acc p =>
      match acc with
      | none => some p
      | some b => if p.2 < b.2 then some p else some b) none).map
    Prod.fst).getD 0

/-- Indices `0, …, l.length - 1` sorted by the corresponding value of `l`
(`np.argsort`).  numpy's default sort leaves the relative order of equal
values unspecified; the embedding fixes the stable order. -/
def argsortIdx (l : List K) : List ℕ :=
  (List.range l.length).insertionSort fun i j => l.getD i 0 ≤ l.getD j 0

/-- Embedding of `bilinear_interpolation` (utils/numerical.py, lines 14-56):
Euclidean distances to all grid points; with fewer than 4 points the nearest
point's value; otherwise the inverse-distance-weighted (`1/(d + 1e-10)`,
normalized) average of the values at the 4 nearest points. -/
def bilinear_interpolation (sqrt : K → K) (x y : K)
    (grid_points : List (GridPoint K)) (values : List K) : K :=
  let distances := grid_points.map fun p =>
    sqrt ((p.x - x) ^ 2 + (p.y - y) ^ 2)
  if grid_points.length < 4 then
    values.getD (argminIdx distances) 0
  else
    let nearest_indices := (argsortIdx distances).take 4
    let weights := nearest_indices.map fun i =>
      1 / (distances.getD i 0 + 1 / 10000000000)
    let wsum := weights.sum
    let weightsN := weights.map (· / wsum)
    ((nearest_indices.zip weightsN).map fun pr =>
      values.getD pr.1 0 * pr.2).sum

/-- Per-point height row used by `query_point` after its time handling
(services/interpolation.py, lines 35-72): clamp the query time into
`[times[0], times[-1]]`, locate it with a left `searchsorted`, use the row
directly on a `1e-6` match, otherwise linearly interpolate between the two
bracketing rows (edge rows at the ends). -/
def timeInterpValues (wave_grid : WaveGrid K) (time : K) : List K :=
  let times := wave_grid.times
  let t0 := times.headD 0
  let tl := times.getLast?.getD 0
  let time1 :=
    if time < t0 ∨ tl < time then (if time < t0 then t0 else tl) else time
  let time_idx := (times.takeWhile fun s => decide (s < time1)).length
  if time_idx < times.length ∧ |times.getD time_idx 0 - time1| < 1 / 1000000
  then wave_grid.wave_heights.getD time_idx []
  else if time_idx = 0 then wave_grid.wave_heights.getD 0 []
  else if times.length ≤ time_idx then
    (wave_grid.wave_heights.getLast?).getD []
  else
    let t1 := times.getD (time_idx - 1) 0
    let t2 := times.getD time_idx 0
    let v1 := wave_grid.wave_heights.getD (time_idx - 1) []
    let v2 := wave_grid.wave_heights.getD time_idx []
    (List.range wave_grid.grid_points.length).map fun i =>
      linear_interpolation time1 t1 (v1.getD i 0) t2 (v2.getD i 0)

/-- Embedding of `query_point` (services/interpolation.py, lines 15-85):
temporal handling via `timeInterpValues`, then conversion of the query
(lon, lat) to local coordinates about the mean of all grid points' lon/lat
(`np.mean`), then `bilinear_interpolation`. -/
def query_point (cos sqrt : K → K) (pi : K) (wave_grid : WaveGrid K)
    (lon lat time : K) : K :=
  let values := timeInterpValues wave_grid time
  let origin_lon := (wave_grid.grid_points.map GridPoint.lon).sum /
    (wave_grid.grid_points.length : K)
  let origin_lat := (wave_grid.grid_points.map GridPoint.lat).sum /
    (wave_grid.grid_points.length : K)
  let xy := lonlat_to_xy cos pi lon lat origin_lon origin_lat
  bilinear_interpolation sqrt xy.1 xy.2 wave_grid.grid_points values

/-- Last stored height for the (lon, lat) key, mirroring the Python dict
comprehension `{(p.lon, p.lat): p.wave_height for p in frame.points}` in
which later duplicates overwrite earlier ones (api/query.py, line 76). -/
def lookupHeight (pts : List (WavePoint K)) (lon lat : K) : Option K :=
  pts.foldl (fun acc p =>
    if p.lon = lon ∧ p.lat = lat then some p.wave_height else acc) none

/-- Embedding of `_build_wave_grid_from_frames` (api/query.py, lines 24-88)
for a nonempty frame list: deduplicated sorted lon/lat values of the first
frame, a lat-major grid with the region's lower-left corner as origin and
mid-depth everywhere, and a `(time × point)` height matrix where grid keys
missing from a frame keep height 0. -/
def _build_wave_grid_from_frames (cos : K → K) (pi : K)
    (frames : List (SimulationFrame K)) (region : Region K) : WaveGrid K :=
  let first_frame := frames.headD { time := 0, region := region, points := [] }
  let lons := (first_frame.points.map WavePoint.lon).dedup.insertionSort
    (· ≤ ·)
  let lats := (first_frame.points.map WavePoint.lat).dedup.insertionSort
    (· ≤ ·)
  let grid_points : List (GridPoint K) := lats.flatMap fun lat =>
    lons.map fun lon =>
      let xy := lonlat_to_xy cos pi lon lat region.lon_min region.lat_min
      { x := xy.1, y := xy.2, lon := lon, lat := lat,
        depth := (region.depth_min + region.depth_max) / 2 }
  let times := frames.map SimulationFrame.time
  let wave_heights := frames.map fun fr =>
    grid_points.map fun gp => (lookupHeight fr.points gp.lon gp.lat).getD 0
  { grid_points := grid_points, wave_heights := wave_heights, times := times }

/-- Result of the frame query endpoint: HTTP 404, HTTP 410, or a frame. -/
inductive FrameQueryResult (K : Type) where
  | notFound
  | expired
  | ok (frame : SimulationFrame K)
  deriving DecidableEq

/-- Result of the point query endpoint: HTTP 404, HTTP 410, or a height. -/
inductive PointQueryResult (K : Type) where
  | notFound
  | expired
  | ok (height : K)
  deriving DecidableEq

/-- Queryable view of a stored task: its frame list, optional dense grid,
region, and time configuration (carrying `cache_retention_time`). -/
structure QueryTask (K : Type) where
  frames : List (SimulationFrame K)
  wave_grid : Option (WaveGrid K)
  region : Region K
  time_config : TimeConfig K
  deriving DecidableEq

/-- Linear scan for the frame minimizing `|frame.time − target|`, first
minimum wins (api/query.py, lines 179-188); `none` iff the list is empty. -/
def closestFrame (frames : List (SimulationFrame K)) (target : K) :
    Option (SimulationFrame K) :=
  frames.foldl (fun best f =>
    match best with
    | none => some f
    | some b => if |f.time - target| < |b.time - target| then some f
        else some b) none

/-- First index minimizing `|l[i] − target|` (`np.argmin(np.abs(a - t))`). -/
def argminAbsIdx (l : List K) (target : K) : ℕ :=
  ((l.enum.foldl (fun acc p =>
      match acc with
      | none => some (p.1, |p.2 - target|)
      | some b => if |p.2 - target| < b.2 then some (p.1, |p.2 - target|)
          else some b) none).map Prod.fst).getD 0

/-- Frame assembled from row `idx` of a dense grid (api/query.py,
lines 196-220 and 128-151). -/
def frameFromGridRow (g : WaveGrid K) (idx : ℕ) (region : Region K) :
    SimulationFrame K :=
  { time := g.times.getD idx 0
    region := region
    points := (g.grid_points.zip (g.wave_heights.getD idx [])).map fun pr =>
      { lon := pr.1.lon, lat := pr.1.lat, wave_height := pr.2 } }

/-- Retention gate shared by the query endpoints (api/query.py,
lines 161-174 and 274-288, frames branch): with a configured retention
window and a nonempty frame list, a target time strictly below
`latest.time − retention` is expired. -/
def retentionExpired (retention : Option K)
    (frames : List (SimulationFrame K)) (target : K) : Bool :=
  match retention, frames.getLast? with
  | some R, some latest => decide (target < latest.time - R)
  | _, _ => false

/-- Non-expired lookup path of `get_simulation_frames` (api/query.py,
lines 176-225): scan the frames for the nearest time; with no frames, fall
back to the dense grid's nearest row; otherwise 404. -/
def frameLookup (task : QueryTask K) (target : K) : FrameQueryResult K :=
  match closestFrame task.frames target with
  | some cf => .ok cf
  | none =>
    match task.wave_grid with
    | some g => .ok (frameFromGridRow g (argminAbsIdx g.times target)
        task.region)
    | none => .notFound

/-- Embedding of the `get_simulation_frames` endpoint (api/query.py,
lines 96-225; the copy in api/simulation.py, lines 264-391, is
identical): `time = -1` resolves to the latest frame (or the dense grid's
last row) before any retention check; otherwise the retention gate runs
first and the nearest-frame lookup after it. -/
def get_simulation_frames (task : QueryTask K) (time : K) :
    FrameQueryResult K :=
  if time = -1 then
    match task.frames.getLast? with
    | some latest => .ok latest
    | none =>
      match task.wave_grid with
      | some g =>
        if 0 < g.times.length then
          .ok (frameFromGridRow g (g.times.length - 1) task.region)
        else .notFound
      | none => .notFound
  else
    if retentionExpired task.time_config.cache_retention_time task.frames
        time then .expired
    else frameLookup task time

/-- Embedding of the `query_wave_at_point` endpoint (api/query.py,
lines 233-340): resolve `time = -1` to the latest available time, apply the
retention gate (frames first, else the dense grid), then interpolate via
`query_point` on the task's dense grid or on one rebuilt from its frames. -/
def query_wave_at_point (cos sqrt : K → K) (pi : K) (task : QueryTask K)
    (lon lat time : K) : PointQueryResult K :=
  let qtime : Option K :=
    if time = -1 then
      match task.frames.getLast? with
      | some latest => some latest.time
      | none =>
        match task.wave_grid with
        | some g => some (g.times.getLast?.getD 0)
        | none => none
    else some time
  match qtime with
  | none => .notFound
  | some query_time =>
    let isExpired : Bool :=
      match task.time_config.cache_retention_time with
      | some R =>
        match task.frames.getLast? with
        | some latest => decide (query_time < latest.time - R)
        | none =>
          match task.wave_grid with
          | some g => decide (query_time < g.times.getLast?.getD 0 - R)
          | none => false
      | none => false
    if isExpired then .expired
    else
      match task.wave_grid with
      | some g => .ok (query_point cos sqrt pi g lon lat query_time)
      | none =>
        match task.frames with
        | [] => .notFound
        | f :: fs =>
          .ok (query_point cos sqrt pi
            (_build_wave_grid_from_frames cos pi (f :: fs) task.region)
            lon lat query_time)

/-- Invariant for the monotone-frame-times claim: the frame list is strictly
increasing in time, every frame time is bounded by the stepper's committed
time, and the stepper is past its initial emission. -/
def MonoInv (st : LoopState K) : Prop :=
  List.Pairwise (fun a b : SimulationFrame K => a.time < b.time) st.frames
  ∧ (∀ f ∈ st.frames, f.time ≤ st.stepper.current_time)
  ∧ 1 ≤ st.stepper.current_time_idx

/-- Invariant for the gap-freedom analysis: the frame list is nonempty,
consecutive frames differ by exactly `d`, the last frame sits at the
stepper's committed time, the stepper is past its initial emission, and its
step size is `d`. -/
def ContigInv (d : K) (st : LoopState K) : Prop :=
  st.frames ≠ []
  ∧ List.Chain' (fun a b : SimulationFrame K => b.time = a.time + d)
      st.frames
  ∧ (∃ lf, st.frames.getLast? = some lf
      ∧ lf.time = st.stepper.current_time)
  ∧ 1 ≤ st.stepper.current_time_idx
  ∧ st.stepper.dt = d

/-- Concrete one-point dense grid for the C9 witness. -/
def c9grid : WaveGrid ℚ := ⟨[⟨0, 0, 0, 0, 5⟩], [[7]], [0]⟩

/-- Local coordinates of the C9 witness query about the grid's mean
origin. -/
def c9xy : ℚ × ℚ := lonlat_to_xy (fun z => z) 3 0 0
  ((c9grid.grid_points.map GridPoint.lon).sum /
    (c9grid.grid_points.length : ℚ))
  ((c9grid.grid_points.map GridPoint.lat).sum /
    (c9grid.grid_points.length : ℚ))

/-- Degenerate region of the C2 counterexample: half a degree of longitude,
just under one degree of latitude. -/
noncomputable def c2region : Region ℝ := ⟨0, 0, 0, 1 / 2, 999 / 1000, 0⟩

/-- Discretization of the C2 counterexample: one grid column, 1000 grid
rows, `max_points = 10`. -/
noncomputable def c2config : DiscretizationConfig ℝ := ⟨1, 1 / 1000, 10⟩

/-- C1: incremental advancement is bit-identical to direct evaluation — for
every spectrum, grid, time `t` and step `dt`, `_advance_wave_field` applied to
the height field evaluated at time `t` returns at every grid point the
closed-form superposition `Σ_c A_c·cos(kx_c·x + ky_c·y − ω_c·(t+dt) + φ_c)`,
i.e. exactly the direct evaluation at `t + dt`.  The identity holds for every
interpretation of `sin`, `cos`, `pi`, so in particular for the exact real
(hence also any floating-point) interpretation. -/
theorem advance_wave_field_eq_direct_eval (sin cos : K → K) (pi : K)
    (spectrum : WaveSpectrum K) (grid_points : List (GridPoint K))
    (dt t : K) :
    _advance_wave_field sin cos pi
        (waveFieldAt sin cos pi spectrum grid_points t)
        spectrum grid_points dt t
      = grid_points.map (fun p =>
          (spectrum.components.map fun c =>
            c.amplitude * cos
              (c.wave_number * sin (c.direction_deg * pi / 180) * p.x
                + c.wave_number * cos (c.direction_deg * pi / 180) * p.y
                - 2 * pi * c.frequency * (t + dt) + c.phase)).sum)
      ∧ _advance_wave_field sin cos pi
          (waveFieldAt sin cos pi spectrum grid_points t)
          spectrum grid_points dt t
        = waveFieldAt sin cos pi spectrum grid_points (t + dt) :=
  ⟨rfl, rfl⟩

/-- C6: time-limit policy of `step()` — in the advancing phase
(`current_time_idx ≠ 0`, not yet completed or stopped) with
`time_limit = L` set: a step whose resulting time `current_time + dt`
exceeds `L + 1e-9` returns `none` and flags `is_completed`; the boundary
step whose resulting time equals `L` exactly is still emitted as a frame at
time `L`, and that same call flags completion only together with emitting
it. -/
theorem step_time_limit_policy (sin cos : K → K) (pi : K)
    (s : SimulationStepper K) (L : K)
    (hc : s.is_completed = false) (hs : s.is_stopped = false)
    (hidx : s.current_time_idx ≠ 0) (hL : s.time_limit = some L) :
    (L + epsLimit K < s.current_time + s.dt →
      (s.step sin cos pi).1 = none
        ∧ (s.step sin cos pi).2.is_completed = true)
    ∧ (s.current_time + s.dt = L →
      ∃ fr, (s.step sin cos pi).1 = some fr ∧ fr.time = L
        ∧ (s.step sin cos pi).2.is_completed = true) := by
  have heps : (0 : K) < epsLimit K := by
    unfold epsLimit; positivity
  constructor
  · intro hgt
    have hex : exceedsLimit s.time_limit (s.current_time + s.dt) = true := by
      rw [hL]; simpa [exceedsLimit] using hgt
    constructor <;>
      simp [SimulationStepper.step, hc, hs, hidx, hex]
  · intro heq
    have hex : exceedsLimit s.time_limit L = false := by
      rw [hL]; simp [exceedsLimit]; linarith
    have hrl : reachedLimit s.time_limit L = true := by
      rw [hL]; simp [reachedLimit]; linarith
    refine ⟨_create_frame (s.current_time + s.dt)
        (_advance_wave_field sin cos pi s.current_wave_height s.spectrum
          s.grid_points s.dt s.current_time) s.grid_points s.region,
      ?_, ?_, ?_⟩ <;>
      simp [SimulationStepper.step, hc, hs, hidx, hex, hrl, _create_frame,
        heq]

/-- Arithmetic fact for the C6 witness: with limit `5`, the resulting time
`5 + 1` exceeds `5 + 1e-9`. -/
theorem exceed_bound_num : (5 : ℚ) + epsLimit ℚ < 5 + 1 := by
  norm_num [epsLimit]

/-- Arithmetic fact for the C6 witness: with limit `6`, the resulting time
`5 + 1` hits the limit exactly. -/
theorem boundary_num : (5 : ℚ) + 1 = 6 := by norm_num

/-- Witness for C6 at `K := ℚ`: a stepper at `current_time = 5`, `dt = 1`.
With `time_limit = 5` the resulting time `6` exceeds the limit and the step
is suppressed with completion flagged; with `time_limit = 6` the resulting
time hits the limit exactly and the boundary frame is emitted at time `6`
with completion flagged. -/
theorem step_time_limit_policy_witness :
    ((SimulationStepper.step (K := ℚ) (fun z => z) (fun z => z) 3
        ⟨⟨0, 0, 0, 1, 1, 0⟩, [], ⟨[], 2, 8, 270⟩, [], 1, some 5, 5, 7,
          false, false⟩).1 = none
      ∧ (SimulationStepper.step (K := ℚ) (fun z => z) (fun z => z) 3
          ⟨⟨0, 0, 0, 1, 1, 0⟩, [], ⟨[], 2, 8, 270⟩, [], 1, some 5, 5, 7,
            false, false⟩).2.is_completed = true)
    ∧ ∃ fr,
      (SimulationStepper.step (K := ℚ) (fun z => z) (fun z => z) 3
          ⟨⟨0, 0, 0, 1, 1, 0⟩, [], ⟨[], 2, 8, 270⟩, [], 1, some 6, 5, 7,
            false, false⟩).1 = some fr
        ∧ fr.time = 6
        ∧ (SimulationStepper.step (K := ℚ) (fun z => z) (fun z => z) 3
            ⟨⟨0, 0, 0, 1, 1, 0⟩, [], ⟨[], 2, 8, 270⟩, [], 1, some 6, 5, 7,
              false, false⟩).2.is_completed = true :=
  ⟨(step_time_limit_policy (fun z => z) (fun z => z) 3
      ⟨⟨0, 0, 0, 1, 1, 0⟩, [], ⟨[], 2, 8, 270⟩, [], 1, some 5, 5, 7,
        false, false⟩ 5 rfl rfl (by decide) rfl).1 exceed_bound_num,
   (step_time_limit_policy (fun z => z) (fun z => z) 3
      ⟨⟨0, 0, 0, 1, 1, 0⟩, [], ⟨[], 2, 8, 270⟩, [], 1, some 6, 5, 7,
        false, false⟩ 6 rfl rfl (by decide) rfl).2 boundary_num⟩

/-- C7: once `is_completed` or `is_stopped` is true, every subsequent call to
`step()` returns `none` and leaves the whole stepper state — in particular
`current_time`, `current_time_idx` and `current_wave_height` — unchanged, for
any number of repeated calls.  The embedding is a total function, so no call
raises. -/
theorem step_terminal_idempotent (sin cos : K → K) (pi : K)
    (s : SimulationStepper K)
    (h : s.is_completed = true ∨ s.is_stopped = true) (n : ℕ) :
    (fun st => (SimulationStepper.step sin cos pi st).2)^[n] s = s
      ∧ (((fun st => (SimulationStepper.step sin cos pi st).2)^[n] s).step
          sin cos pi).1 = none := by
  have hstep : s.step sin cos pi = (none, s) := by
    rcases h with h | h <;> simp [SimulationStepper.step, h]
  have hiter :
      ∀ m, (fun st => (SimulationStepper.step sin cos pi st).2)^[m] s = s := by
    intro m
    induction m with
    | zero => rfl
    | succ k ih =>
      rw [Function.iterate_succ_apply]
      simpa [hstep] using ih
  exact ⟨hiter n, by rw [hiter n, hstep]⟩

/-- Witness for C7 at `K := ℚ`: three repeated calls on an already-completed
stepper change nothing and the next call still returns `none`. -/
theorem step_terminal_idempotent_witness :
    (fun st => (SimulationStepper.step (K := ℚ) (fun z => z) (fun z => z) 3
        st).2)^[3]
        ⟨⟨0, 0, 0, 1, 1, 0⟩, [], ⟨[], 2, 8, 270⟩, [], 1, none, 5, 3,
          true, false⟩
      = ⟨⟨0, 0, 0, 1, 1, 0⟩, [], ⟨[], 2, 8, 270⟩, [], 1, none, 5, 3,
          true, false⟩
    ∧ (((fun st => (SimulationStepper.step (K := ℚ) (fun z => z)
          (fun z => z) 3 st).2)^[3]
          ⟨⟨0, 0, 0, 1, 1, 0⟩, [], ⟨[], 2, 8, 270⟩, [], 1, none, 5, 3,
            true, false⟩).step (fun z => z) (fun z => z) 3).1 = none :=
  step_terminal_idempotent (fun z => z) (fun z => z) 3
    ⟨⟨0, 0, 0, 1, 1, 0⟩, [], ⟨[], 2, 8, 270⟩, [], 1, none, 5, 3,
      true, false⟩ (Or.inl rfl) 3

/-- C4: retention eviction — for every configured retention window `R > 0`,
after the driving loop appends a frame at time `T` and applies eviction, no
surviving frame has `time < T - R`, and the appended frame itself survives
as the last element (it is never evicted, however small `R` is). -/
theorem retention_eviction_sound (frames : List (SimulationFrame K))
    (frame : SimulationFrame K) (R : K) (hR : 0 < R) :
    (∀ f ∈ appendFrameWithRetention frames frame (some R),
      ¬ f.time < frame.time - R)
    ∧ (appendFrameWithRetention frames frame (some R)).getLast?
        = some frame := by
  have hfr : frame.time - R ≤ frame.time := by linarith
  constructor
  · intro f hf
    rw [appendFrameWithRetention, List.mem_filter, decide_eq_true_eq] at hf
    exact not_lt.2 hf.2
  · rw [appendFrameWithRetention, List.filter_append, List.filter_cons]
    simp [hfr, List.getLast?_append]

/-- Witness for C4 at `K := ℚ`: retention window `R = 1`, a pre-existing
frame at time `0` and a new frame appended at time `2`; the old frame is
dropped, the new frame survives as the last element. -/
theorem retention_eviction_sound_witness :
    (∀ f ∈ appendFrameWithRetention (K := ℚ)
        [⟨0, ⟨0, 0, 0, 1, 1, 0⟩, []⟩] ⟨2, ⟨0, 0, 0, 1, 1, 0⟩, []⟩ (some 1),
      ¬ f.time < SimulationFrame.time (K := ℚ) ⟨2, ⟨0, 0, 0, 1, 1, 0⟩, []⟩ - 1)
    ∧ (appendFrameWithRetention (K := ℚ)
        [⟨0, ⟨0, 0, 0, 1, 1, 0⟩, []⟩] ⟨2, ⟨0, 0, 0, 1, 1, 0⟩, []⟩
        (some 1)).getLast? = some ⟨2, ⟨0, 0, 0, 1, 1, 0⟩, []⟩ :=
  retention_eviction_sound [⟨0, ⟨0, 0, 0, 1, 1, 0⟩, []⟩]
    ⟨2, ⟨0, 0, 0, 1, 1, 0⟩, []⟩ 1 (by decide)

/-- C10: `_advance_wave_field` is insensitive to its `wave_height` argument —
for any two input height arrays of the correct length the results coincide;
the "incremental" path is a full closed-form recomputation at
`current_time + dt`. -/
theorem advance_wave_field_ignores_input (sin cos : K → K) (pi : K)
    (spectrum : WaveSpectrum K) (grid_points : List (GridPoint K))
    (dt current_time : K) (h1 h2 : List K)
    (hl1 : h1.length = grid_points.length)
    (hl2 : h2.length = grid_points.length) :
    _advance_wave_field sin cos pi h1 spectrum grid_points dt current_time
      = _advance_wave_field sin cos pi h2 spectrum grid_points dt
          current_time :=
  rfl

/-- Witness for C10 at a concrete rational instantiation: a one-point grid, a
one-component spectrum and the two distinct height arrays `[0]` and `[37]`. -/
theorem advance_wave_field_ignores_input_witness :
    _advance_wave_field (K := ℚ) (fun z => z) (fun z => z) 3
        [0] ⟨[⟨1, 2, 3, 4, 5⟩], 2, 8, 270⟩ [⟨1, 2, 3, 4, 5⟩] 1 0
      = _advance_wave_field (K := ℚ) (fun z => z) (fun z => z) 3
          [37] ⟨[⟨1, 2, 3, 4, 5⟩], 2, 8, 270⟩ [⟨1, 2, 3, 4, 5⟩] 1 0 :=
  advance_wave_field_ignores_input (fun z => z) (fun z => z) 3
    ⟨[⟨1, 2, 3, 4, 5⟩], 2, 8, 270⟩ [⟨1, 2, 3, 4, 5⟩] 1 0 [0] [37]
    (by decide) (by decide)

/-- Structural facts about one synchronous collect step, used by the loop
invariants: `dt` is unchanged, the committed step index stays at least 1,
and either no frame is produced and the committed time is unchanged, or the
produced frame and the committed time both sit at `current_time + dt`. -/
theorem get_precomputed_frame_cases (sin cos : K → K) (pi : K)
    (s : SimulationStepper K) (hidx : 1 ≤ s.current_time_idx) :
    (s.get_precomputed_frame sin cos pi).2.dt = s.dt
    ∧ 1 ≤ (s.get_precomputed_frame sin cos pi).2.current_time_idx
    ∧ (((s.get_precomputed_frame sin cos pi).1 = none
        ∧ (s.get_precomputed_frame sin cos pi).2.current_time
            = s.current_time)
      ∨ (∃ fr, (s.get_precomputed_frame sin cos pi).1 = some fr
        ∧ fr.time = s.current_time + s.dt
        ∧ (s.get_precomputed_frame sin cos pi).2.current_time
            = s.current_time + s.dt)) := by
  have h0 : ¬ s.current_time_idx = 0 := by omega
  have h4 : 0 < s.current_time_idx := hidx
  by_cases h1 : (s.is_completed || s.is_stopped) = true
  · refine ⟨?_, ?_, Or.inl ⟨?_, ?_⟩⟩ <;>
      simp [SimulationStepper.get_precomputed_frame, h1, hidx]
  · rw [Bool.not_eq_true] at h1
    by_cases h2 : exceedsLimit s.time_limit (s.current_time + s.dt) = true
    · refine ⟨?_, ?_, Or.inl ⟨?_, ?_⟩⟩ <;>
        simp [SimulationStepper.get_precomputed_frame, h1, h0, h2, hidx]
    · rw [Bool.not_eq_true] at h2
      by_cases h3 : reachedLimit s.time_limit (s.current_time + s.dt) = true
      all_goals
        refine ⟨?_, ?_, Or.inr ⟨_create_frame (s.current_time + s.dt)
          (_advance_wave_field sin cos pi s.current_wave_height s.spectrum
            s.grid_points s.dt s.current_time) s.grid_points s.region,
          ?_, ?_, ?_⟩⟩
      all_goals
        simp [SimulationStepper.get_precomputed_frame, h1, h0, h2, h4,
          _create_frame]
      all_goals simp [h3]

/-- Appending a frame later than all existing ones, followed by retention
eviction, keeps the frame list strictly increasing and bounded by the new
frame's time. -/
theorem appendFrameWithRetention_mono (frames : List (SimulationFrame K))
    (frame : SimulationFrame K) (retention : Option K)
    (hp : List.Pairwise (fun a b : SimulationFrame K => a.time < b.time)
      frames)
    (hb : ∀ f ∈ frames, f.time < frame.time) :
    List.Pairwise (fun a b : SimulationFrame K => a.time < b.time)
      (appendFrameWithRetention frames frame retention)
    ∧ ∀ f ∈ appendFrameWithRetention frames frame retention,
        f.time ≤ frame.time := by
  have happ : List.Pairwise (fun a b : SimulationFrame K => a.time < b.time)
      (frames ++ [frame]) := by
    rw [List.pairwise_append]
    refine ⟨hp, List.pairwise_singleton _ _, ?_⟩
    intro a ha b hbm
    rw [List.mem_singleton] at hbm
    subst hbm
    exact hb a ha
  have hmem : ∀ f ∈ frames ++ [frame], f.time ≤ frame.time := by
    intro f hf
    rcases List.mem_append.mp hf with h | h
    · exact le_of_lt (hb f h)
    · rw [List.mem_singleton] at h
      subst h
      exact le_refl _
  cases retention with
  | none => exact ⟨happ, hmem⟩
  | some R =>
    constructor
    · exact List.Pairwise.sublist (List.filter_sublist _) happ
    · intro f hf
      exact hmem f (List.mem_of_mem_filter hf)

/-- One driving-loop iteration preserves the monotonicity invariant and the
step size. -/
theorem loopIteration_mono (sin cos : K → K) (pi : K) (retention : Option K)
    (inp : LoopInput) (st : LoopState K)
    (hdt : 0 < st.stepper.dt) (hinv : MonoInv st) :
    MonoInv (loopIteration sin cos pi retention inp st)
    ∧ (loopIteration sin cos pi retention inp st).stepper.dt
        = st.stepper.dt := by
  obtain ⟨hp, hb, hidx⟩ := hinv
  obtain ⟨hdteq, hidx2, hcase⟩ :=
    get_precomputed_frame_cases sin cos pi st.stepper hidx
  have hble : st.stepper.current_time
      ≤ (st.stepper.get_precomputed_frame sin cos pi).2.current_time := by
    rcases hcase with ⟨-, h⟩ | ⟨fr, -, -, h⟩
    · rw [h]
    · rw [h]; linarith
  by_cases c1 : st.done = true
  · simp only [loopIteration, c1, if_true]
    exact ⟨⟨hp, hb, hidx⟩, by trivial⟩
  · rw [Bool.not_eq_true] at c1
    by_cases c2 : inp.first.stop_requested = true
    · simp only [loopIteration, c1, c2, Bool.false_eq_true, if_false, if_true]
      refine ⟨⟨List.Pairwise.nil, ?_, ?_⟩, ?_⟩ <;>
        simp [SimulationStepper.stop, hidx]
    · rw [Bool.not_eq_true] at c2
      by_cases c3 : (st.stepper.is_completed && st.stepper.time_limit.isSome)
          = true
      · simp only [loopIteration, c1, c2, c3, Bool.false_eq_true, if_false,
          if_true]
        exact ⟨⟨hp, hb, hidx⟩, by trivial⟩
      · rw [Bool.not_eq_true] at c3
        by_cases c4 : inp.first.clock_paused = true
        · simp only [loopIteration, c1, c2, c3, c4, Bool.false_eq_true,
            if_false, if_true]
          exact ⟨⟨hp, hb, hidx⟩, by trivial⟩
        · rw [Bool.not_eq_true] at c4
          by_cases c5 : inp.second.stop_requested = true
          · simp only [loopIteration, c1, c2, c3, c4, c5,
              Bool.false_eq_true, if_false, if_true]
            refine ⟨⟨List.Pairwise.nil, ?_, ?_⟩, ?_⟩ <;>
              simp [SimulationStepper.stop, hidx2, hdteq]
          · rw [Bool.not_eq_true] at c5
            by_cases c6 : inp.second.clock_paused = true
            · simp only [loopIteration, c1, c2, c3, c4, c5, c6,
                Bool.false_eq_true, if_false, if_true]
              refine ⟨⟨hp, ?_, hidx2⟩, hdteq⟩
              intro f hf
              exact le_trans (hb f hf) hble
            · rw [Bool.not_eq_true] at c6
              rcases hcase with ⟨hnone, hct⟩ | ⟨fr, hsome, hft, hct⟩
              · simp only [loopIteration, c1, c2, c3, c4, c5, c6,
                  Bool.false_eq_true, if_false, hnone]
                by_cases c7 : ((st.stepper.get_precomputed_frame
                    sin cos pi).2.is_completed
                    && (st.stepper.get_precomputed_frame
                      sin cos pi).2.time_limit.isSome) = true
                all_goals
                  simp only [c7, Bool.false_eq_true, if_false, if_true]
                all_goals
                  refine ⟨⟨hp, ?_, hidx2⟩, hdteq⟩
                all_goals
                  intro f hf
                  rw [hct]
                  exact hb f hf
              · simp only [loopIteration, c1, c2, c3, c4, c5, c6,
                  Bool.false_eq_true, if_false, hsome]
                have hblt : ∀ f ∈ st.frames, f.time < fr.time := by
                  intro f hf
                  rw [hft]
                  calc f.time ≤ st.stepper.current_time := hb f hf
                    _ < st.stepper.current_time + st.stepper.dt := by linarith
                obtain ⟨hp2, hb2⟩ :=
                  appendFrameWithRetention_mono st.frames fr retention hp hblt
                refine ⟨⟨hp2, ?_, hidx2⟩, hdteq⟩
                intro f hf
                rw [hct, ← hft]
                exact hb2 f hf

/-- The driving loop preserves the monotonicity invariant and the step size
over any schedule of external flag reads. -/
theorem runLoop_mono (sin cos : K → K) (pi : K) (retention : Option K)
    (inputs : List LoopInput) :
    ∀ st : LoopState K, 0 < st.stepper.dt → MonoInv st →
      MonoInv (runLoop sin cos pi retention inputs st)
      ∧ (runLoop sin cos pi retention inputs st).stepper.dt
          = st.stepper.dt := by
  induction inputs with
  | nil =>
    intro st h1 h2
    exact ⟨h2, rfl⟩
  | cons i rest ih =>
    intro st h1 h2
    obtain ⟨h3, h4⟩ := loopIteration_mono sin cos pi retention i st h1 h2
    obtain ⟨h5, h6⟩ := ih (loopIteration sin cos pi retention i st)
      (h4 ▸ h1) h3
    simp only [runLoop, List.foldl_cons] at h5 h6 ⊢
    exact ⟨h5, h6.trans h4⟩

/-- State after the loop prologue: a single frame at time 0, committed time
0, step index 1, step size `dt_backend`. -/
theorem initLoopState_mono (sin cos : K → K) (pi : K) (region : Region K)
    (grid_points : List (GridPoint K)) (spectrum : WaveSpectrum K)
    (tc : TimeConfig K) :
    MonoInv (initLoopState sin cos pi region grid_points spectrum tc)
    ∧ (initLoopState sin cos pi region grid_points spectrum tc).stepper.dt
        = tc.dt_backend := by
  refine ⟨⟨?_, ?_, ?_⟩, ?_⟩ <;>
    simp [initLoopState, mkStepper, SimulationStepper.step, _create_frame]

/-- C5: monotonic frame times — for every reachable task state (any schedule
of externally observed stop/pause flags driving the loop from task
creation), the task's frame list is strictly increasing in time; appending a
newly produced frame and retention eviction both preserve the ordering (the
inductive step `loopIteration_mono` / `appendFrameWithRetention_mono`). -/
theorem frames_times_strictly_monotone (sin cos : K → K) (pi : K)
    (region : Region K) (grid_points : List (GridPoint K))
    (spectrum : WaveSpectrum K) (tc : TimeConfig K)
    (inputs : List LoopInput) (hdt : 0 < tc.dt_backend) :
    List.Pairwise (fun a b : SimulationFrame K => a.time < b.time)
      (runLoop sin cos pi tc.cache_retention_time inputs
        (initLoopState sin cos pi region grid_points spectrum tc)).frames := by
  obtain ⟨hinv, hdteq⟩ :=
    initLoopState_mono sin cos pi region grid_points spectrum tc
  exact ((runLoop_mono sin cos pi tc.cache_retention_time inputs _
    (by rw [hdteq]; exact hdt) hinv).1).1

/-- Witness for C5 at `K := ℚ`: one unpaused loop iteration on an empty grid
with `dt = 1` and no limits. -/
theorem frames_times_strictly_monotone_witness :
    List.Pairwise (fun a b : SimulationFrame ℚ => a.time < b.time)
      (runLoop (fun z => z) (fun z => z) 3 none
        [⟨⟨false, false⟩, ⟨false, false⟩⟩]
        (initLoopState (fun z => z) (fun z => z) 3 ⟨0, 0, 0, 1, 1, 0⟩ []
          ⟨[], 2, 8, 270⟩ ⟨1, none, none⟩)).frames :=
  frames_times_strictly_monotone (fun z => z) (fun z => z) 3
    ⟨0, 0, 0, 1, 1, 0⟩ [] ⟨[], 2, 8, 270⟩ ⟨1, none, none⟩
    [⟨⟨false, false⟩, ⟨false, false⟩⟩] (by decide)

/-- Filtering by a predicate that is upward closed along a pairwise relation
keeps a suffix of the list. -/
theorem filter_suffix_of_pairwise {α : Type} {R : α → α → Prop}
    (p : α → Bool) (hmono : ∀ a b : α, R a b → p a = true → p b = true) :
    ∀ l : List α, List.Pairwise R l → l.filter p <:+ l := by
  intro l hl
  induction l with
  | nil => simp
  | cons x xs ih =>
    rw [List.pairwise_cons] at hl
    obtain ⟨hx, hxs⟩ := hl
    by_cases hpx : p x = true
    · have hall : xs.filter p = xs :=
        List.filter_eq_self.mpr fun b hb => hmono x b (hx b hb) hpx
      rw [List.filter_cons_of_pos hpx, hall]
    · have hpx' : ¬ p x = true := hpx
      rw [List.filter_cons_of_neg hpx']
      exact (ih hxs).trans (List.suffix_cons x xs)

/-- Appending the next consecutive frame and evicting with a positive
retention window keeps the frame list gap-free and keeps the appended frame
as the last element. -/
theorem appendFrameWithRetention_contig (d : K) (hd : 0 < d)
    (frames : List (SimulationFrame K)) (frame : SimulationFrame K)
    (retention : Option K) (hret : ∀ R ∈ retention, 0 < R)
    (hc : List.Chain' (fun a b : SimulationFrame K => b.time = a.time + d)
      frames)
    (lf : SimulationFrame K) (hlf : frames.getLast? = some lf)
    (hft : frame.time = lf.time + d) :
    List.Chain' (fun a b : SimulationFrame K => b.time = a.time + d)
      (appendFrameWithRetention frames frame retention)
    ∧ (appendFrameWithRetention frames frame retention).getLast?
        = some frame := by
  have happ : List.Chain' (fun a b : SimulationFrame K => b.time = a.time + d)
      (frames ++ [frame]) := by
    apply hc.append (List.chain'_singleton _)
    intro x hx y hy
    rw [hlf, Option.mem_def, Option.some_inj] at hx
    rw [List.head?_cons, Option.mem_def, Option.some_inj] at hy
    subst hx; subst hy
    exact hft
  have hlt : List.Chain' (fun a b : SimulationFrame K => a.time < b.time)
      (frames ++ [frame]) := by
    refine happ.imp ?_
    intro a b h
    rw [h]
    linarith
  haveI : IsTrans (SimulationFrame K)
      (fun a b : SimulationFrame K => a.time < b.time) :=
    ⟨fun _ _ _ h1 h2 => lt_trans h1 h2⟩
  have hplt : List.Pairwise (fun a b : SimulationFrame K => a.time < b.time)
      (frames ++ [frame]) := List.chain'_iff_pairwise.mp hlt
  cases retention with
  | none =>
    refine ⟨happ, ?_⟩
    rw [appendFrameWithRetention]
    exact List.getLast?_concat _
  | some R =>
    have hR : 0 < R := hret R rfl
    have hfr : frame.time - R ≤ frame.time := by linarith
    have hsuffix : (frames ++ [frame]).filter
        (fun f => decide (frame.time - R ≤ f.time)) <:+ (frames ++ [frame]) := by
      apply filter_suffix_of_pairwise _ _ _ hplt
      intro a b hab hpa
      rw [decide_eq_true_eq] at hpa ⊢
      linarith
    constructor
    · exact happ.suffix hsuffix
    · rw [appendFrameWithRetention, List.filter_append, List.filter_cons]
      simp [hfr, List.getLast?_append]

/-- One driving-loop iteration in which no stop is requested and no pause is
observed at the post-sleep recheck preserves the gap-freedom invariant. -/
theorem loopIteration_contig (sin cos : K → K) (pi : K)
    (retention : Option K) (d : K) (hd : 0 < d)
    (hret : ∀ R ∈ retention, 0 < R) (inp : LoopInput) (st : LoopState K)
    (hstop1 : inp.first.stop_requested = false)
    (hstop2 : inp.second.stop_requested = false)
    (hpause2 : inp.second.clock_paused = false)
    (hinv : ContigInv d st) :
    ContigInv d (loopIteration sin cos pi retention inp st) := by
  obtain ⟨hne, hch, ⟨lf, hlf, hlt⟩, hidx, hdtd⟩ := hinv
  obtain ⟨hdteq, hidx2, hcase⟩ :=
    get_precomputed_frame_cases sin cos pi st.stepper hidx
  by_cases c1 : st.done = true
  · simp only [loopIteration, c1, if_true]
    exact ⟨hne, hch, ⟨lf, hlf, hlt⟩, hidx, hdtd⟩
  · rw [Bool.not_eq_true] at c1
    by_cases c3 : (st.stepper.is_completed && st.stepper.time_limit.isSome)
        = true
    · simp only [loopIteration, c1, hstop1, c3, Bool.false_eq_true, if_false,
        if_true]
      exact ⟨hne, hch, ⟨lf, hlf, hlt⟩, hidx, hdtd⟩
    · rw [Bool.not_eq_true] at c3
      by_cases c4 : inp.first.clock_paused = true
      · simp only [loopIteration, c1, hstop1, c3, c4, Bool.false_eq_true,
          if_false, if_true]
        exact ⟨hne, hch, ⟨lf, hlf, hlt⟩, hidx, hdtd⟩
      · rw [Bool.not_eq_true] at c4
        rcases hcase with ⟨hnone, hct⟩ | ⟨fr, hsome, hft, hct⟩
        · simp only [loopIteration, c1, hstop1, c3, c4, hstop2, hpause2,
            Bool.false_eq_true, if_false, hnone]
          by_cases c7 : ((st.stepper.get_precomputed_frame
              sin cos pi).2.is_completed
              && (st.stepper.get_precomputed_frame
                sin cos pi).2.time_limit.isSome) = true
          all_goals
            simp only [c7, Bool.false_eq_true, if_false, if_true]
          all_goals
            exact ⟨hne, hch, ⟨lf, hlf, by rw [hlt, hct]⟩, hidx2,
              hdteq.trans hdtd⟩
        · simp only [loopIteration, c1, hstop1, c3, c4, hstop2, hpause2,
            Bool.false_eq_true, if_false, hsome]
          have hft2 : fr.time = lf.time + d := by
            rw [hft, hlt, hdtd]
          obtain ⟨hch2, hlast2⟩ := appendFrameWithRetention_contig d hd
            st.frames fr retention hret hch lf hlf hft2
          refine ⟨?_, hch2, ⟨fr, hlast2, ?_⟩, hidx2, hdteq.trans hdtd⟩
          · intro hcon
            have hcon2 : appendFrameWithRetention st.frames fr retention
                = [] := hcon
            rw [hcon2] at hlast2
            exact Option.noConfusion hlast2
          · rw [hft, hct, hdtd]

/-- The driving loop preserves the gap-freedom invariant over any schedule
without stop requests or post-sleep pause observations. -/
theorem runLoop_contig (sin cos : K → K) (pi : K) (retention : Option K)
    (d : K) (hd : 0 < d) (hret : ∀ R ∈ retention, 0 < R)
    (inputs : List LoopInput)
    (hflags : ∀ inp ∈ inputs, inp.first.stop_requested = false
      ∧ inp.second.stop_requested = false
      ∧ inp.second.clock_paused = false) :
    ∀ st : LoopState K, ContigInv d st →
      ContigInv d (runLoop sin cos pi retention inputs st) := by
  induction inputs with
  | nil => intro st h; exact h
  | cons i rest ih =>
    intro st h
    obtain ⟨h1, h2, h3⟩ := hflags i (List.mem_cons_self i rest)
    have hstep := loopIteration_contig sin cos pi retention d hd hret i st
      h1 h2 h3 h
    have := ih (fun inp hm => hflags inp (List.mem_cons_of_mem i hm))
      (loopIteration sin cos pi retention i st) hstep
    simpa [runLoop, List.foldl_cons] using this

/-- State after the loop prologue satisfies the gap-freedom invariant. -/
theorem initLoopState_contig (sin cos : K → K) (pi : K) (region : Region K)
    (grid_points : List (GridPoint K)) (spectrum : WaveSpectrum K)
    (tc : TimeConfig K) :
    ContigInv tc.dt_backend
      (initLoopState sin cos pi region grid_points spectrum tc) := by
  refine ⟨?_, ?_, ⟨⟨0, region, (grid_points.zip
    (_initialize_wave_field sin cos pi spectrum grid_points)).map fun pr =>
      ⟨pr.1.lon, pr.1.lat, pr.2⟩⟩, ?_, ?_⟩, ?_, ?_⟩ <;>
    simp [initLoopState, mkStepper, SimulationStepper.step, _create_frame]

/-- C3 (amended): pause/resume continuity holds for every interleaving in
which pauses are observed only at the top-of-loop check — for any schedule
with no stop request and no pause observed at the post-sleep recheck, the
frame list stays nonempty (nothing is cleared on pause) and consecutive
frames differ by exactly one `dt_backend` (no gaps; with `dt_backend > 0`
this also excludes duplicate times).  The original claim fails when a pause
is observed at the post-sleep recheck: the already-collected frame is
discarded, leaving a one-`dt` gap (see the counterexample). -/
theorem pause_resume_no_gaps_amended (sin cos : K → K) (pi : K)
    (region : Region K) (grid_points : List (GridPoint K))
    (spectrum : WaveSpectrum K) (tc : TimeConfig K)
    (inputs : List LoopInput) (hdt : 0 < tc.dt_backend)
    (hret : ∀ R ∈ tc.cache_retention_time, 0 < R)
    (hflags : ∀ inp ∈ inputs, inp.first.stop_requested = false
      ∧ inp.second.stop_requested = false
      ∧ inp.second.clock_paused = false) :
    (runLoop sin cos pi tc.cache_retention_time inputs
      (initLoopState sin cos pi region grid_points spectrum tc)).frames ≠ []
    ∧ List.Chain'
        (fun a b : SimulationFrame K => b.time = a.time + tc.dt_backend)
        (runLoop sin cos pi tc.cache_retention_time inputs
          (initLoopState sin cos pi region grid_points spectrum tc)).frames := by
  have h := runLoop_contig sin cos pi tc.cache_retention_time tc.dt_backend
    hdt hret inputs hflags
    (initLoopState sin cos pi region grid_points spectrum tc)
    (initLoopState_contig sin cos pi region grid_points spectrum tc)
  exact ⟨h.1, h.2.1⟩

/-- Witness for the amended C3 at `K := ℚ`: a pause observed at the
top-of-loop check followed by a resumed iteration; the appended frames stay
gap-free. -/
theorem pause_resume_no_gaps_amended_witness :
    (runLoop (K := ℚ) (fun z => z) (fun z => z) 3 none
      [⟨⟨false, true⟩, ⟨false, false⟩⟩, ⟨⟨false, false⟩, ⟨false, false⟩⟩]
      (initLoopState (fun z => z) (fun z => z) 3 ⟨0, 0, 0, 1, 1, 0⟩ []
        ⟨[], 2, 8, 270⟩ ⟨1, none, none⟩)).frames ≠ []
    ∧ List.Chain' (fun a b : SimulationFrame ℚ => b.time = a.time + 1)
        (runLoop (fun z => z) (fun z => z) 3 none
          [⟨⟨false, true⟩, ⟨false, false⟩⟩,
            ⟨⟨false, false⟩, ⟨false, false⟩⟩]
          (initLoopState (fun z => z) (fun z => z) 3 ⟨0, 0, 0, 1, 1, 0⟩ []
            ⟨[], 2, 8, 270⟩ ⟨1, none, none⟩)).frames :=
  pause_resume_no_gaps_amended (fun z => z) (fun z => z) 3
    ⟨0, 0, 0, 1, 1, 0⟩ [] ⟨[], 2, 8, 270⟩ ⟨1, none, none⟩
    [⟨⟨false, true⟩, ⟨false, false⟩⟩, ⟨⟨false, false⟩, ⟨false, false⟩⟩]
    (by decide) (by simp) (by decide)

set_option maxHeartbeats 1000000 in
/-- Counterexample to C3 as stated: with `dt_backend = 1`, no limits and no
retention, pausing between frame collection and the post-sleep recheck
(second flag read of iteration 1) and then resuming produces the frame
times `[0, 2]` — the collected frame at time 1 is dropped, so the appended
frames do not all differ by exactly one `dt_backend`. -/
theorem pause_recheck_gap_counterexample :
    ¬ List.Chain' (fun a b : SimulationFrame ℚ => b.time = a.time + 1)
      (runLoop (fun z => z) (fun z => z) 3 none
        [⟨⟨false, false⟩, ⟨false, true⟩⟩, ⟨⟨false, false⟩, ⟨false, false⟩⟩]
        (initLoopState (fun z => z) (fun z => z) 3 ⟨0, 0, 0, 1, 1, 0⟩ []
          ⟨[], 2, 8, 270⟩ ⟨1, none, none⟩)).frames := by
  intro hch
  have hfr : (runLoop (K := ℚ) (fun z => z) (fun z => z) 3 none
      [⟨⟨false, false⟩, ⟨false, true⟩⟩, ⟨⟨false, false⟩, ⟨false, false⟩⟩]
      (initLoopState (fun z => z) (fun z => z) 3 ⟨0, 0, 0, 1, 1, 0⟩ []
        ⟨[], 2, 8, 270⟩ ⟨1, none, none⟩)).frames
      = [⟨0, ⟨0, 0, 0, 1, 1, 0⟩, []⟩, ⟨0 + 1 + 1, ⟨0, 0, 0, 1, 1, 0⟩, []⟩] :=
    rfl
  rw [hfr] at hch
  rcases List.chain'_cons.mp hch with ⟨hrel, -⟩
  norm_num at hrel

/-- The nearest-frame scan starting from a nonempty accumulator always
returns a frame. -/
theorem closestFrame_fold_some (target : K) :
    ∀ (l : List (SimulationFrame K)) (b : SimulationFrame K),
      ∃ cf, l.foldl (fun best f =>
        match best with
        | none => some f
        | some b => if |f.time - target| < |b.time - target| then some f
            else some b) (some b) = some cf := by
  intro l
  induction l with
  | nil => intro b; exact ⟨b, rfl⟩
  | cons x xs ih =>
    intro b
    rw [List.foldl_cons]
    by_cases h : |x.time - target| < |b.time - target|
    · simpa [h] using ih x
    · simpa [h] using ih b

/-- On a nonempty frame list the nearest-frame scan returns a frame. -/
theorem closestFrame_some (target : K) (f : SimulationFrame K)
    (fs : List (SimulationFrame K)) :
    ∃ cf, closestFrame (f :: fs) target = some cf := by
  rw [closestFrame, List.foldl_cons]
  exact closestFrame_fold_some target fs f

/-- C8: ResourceExpired semantics — whenever `cache_retention_time = R` is
configured (`R > 0` per the config validator) and the task has at least one
frame (latest one `latest`), both the frame query and the point query with
raw time `t` (target time `t`, or `latest.time` when `t` is the `-1`
sentinel) return the ResourceExpired outcome (HTTP 410, distinct from the
NotFound outcome) exactly when the target time is strictly below
`latest.time - R`; a query with target time at or above that threshold never
returns ResourceExpired, regardless of which surviving frame would be
nearest. -/
theorem resource_expired_semantics (cos sqrt : K → K) (pi : K)
    (task : QueryTask K) (R : K)
    (hR : task.time_config.cache_retention_time = some R) (hRpos : 0 < R)
    (latest : SimulationFrame K) (hlast : task.frames.getLast? = some latest)
    (lon lat t : K) :
    ((if t = -1 then latest.time else t) < latest.time - R →
      get_simulation_frames task t = .expired
      ∧ query_wave_at_point cos sqrt pi task lon lat t = .expired)
    ∧ (latest.time - R ≤ (if t = -1 then latest.time else t) →
      get_simulation_frames task t ≠ .expired
      ∧ query_wave_at_point cos sqrt pi task lon lat t ≠ .expired) := by
  have hne : task.frames ≠ [] := by
    intro hcon
    rw [hcon] at hlast
    exact Option.noConfusion hlast
  have hre : ∀ u : K, retentionExpired task.time_config.cache_retention_time
      task.frames u = decide (u < latest.time - R) := by
    intro u
    unfold retentionExpired
    rw [hR, hlast]
  by_cases ht : t = -1
  · constructor
    · intro hlt
      rw [if_pos ht] at hlt
      linarith
    · intro hge
      constructor
      · rw [get_simulation_frames, if_pos ht, hlast]
        intro hcon
        exact FrameQueryResult.noConfusion hcon
      · rw [query_wave_at_point]
        rw [if_pos ht, hlast]
        have hexp : decide (latest.time < latest.time - R) = false := by
          rw [decide_eq_false_iff_not]
          intro hcon
          linarith
        simp only [hR, hexp, Bool.false_eq_true, if_false]
        cases hwg : task.wave_grid with
        | some g =>
          simp only [hwg]
          intro hcon
          exact PointQueryResult.noConfusion hcon
        | none =>
          simp only [hwg]
          cases hfr : task.frames with
          | nil => exact absurd hfr hne
          | cons f fs =>
            simp only
            intro hcon
            exact PointQueryResult.noConfusion hcon
  · rw [if_neg ht]
    constructor
    · intro hlt
      have hexp : decide (t < latest.time - R) = true := by
        rw [decide_eq_true_eq]
        exact hlt
      constructor
      · rw [get_simulation_frames, if_neg ht, hre, hexp]
        rfl
      · rw [query_wave_at_point, if_neg ht]
        simp only [hR, hlast, hexp, if_true]
    · intro hge
      have hexp : decide (t < latest.time - R) = false := by
        rw [decide_eq_false_iff_not]
        exact not_lt.2 hge
      constructor
      · rw [get_simulation_frames, if_neg ht, hre, hexp]
        rw [frameLookup]
        cases hfr : task.frames with
        | nil => exact absurd hfr hne
        | cons f fs =>
          obtain ⟨cf, hcf⟩ := closestFrame_some t f fs
          rw [hcf]
          intro hcon
          exact FrameQueryResult.noConfusion hcon
      · rw [query_wave_at_point, if_neg ht]
        simp only [hR, hlast, hexp, Bool.false_eq_true, if_false]
        cases hwg : task.wave_grid with
        | some g =>
          simp only [hwg]
          intro hcon
          exact PointQueryResult.noConfusion hcon
        | none =>
          simp only [hwg]
          cases hfr : task.frames with
          | nil => exact absurd hfr hne
          | cons f fs =>
            simp only
            intro hcon
            exact PointQueryResult.noConfusion hcon

/-- Witness for C8 at `K := ℚ`: retention window 1, frames at times 0 and 2
(latest 2), query point (0, 0), raw query time 0; the theorem's two
implications are instantiated concretely. -/
theorem resource_expired_semantics_witness :
    ((if (0 : ℚ) = -1 then (2 : ℚ) else 0) < 2 - 1 →
      get_simulation_frames (K := ℚ)
          ⟨[⟨0, ⟨0, 0, 0, 1, 1, 0⟩, []⟩, ⟨2, ⟨0, 0, 0, 1, 1, 0⟩, []⟩], none,
            ⟨0, 0, 0, 1, 1, 0⟩, ⟨1, none, some 1⟩⟩ 0 = .expired
      ∧ query_wave_at_point (K := ℚ) (fun z => z) (fun z => z) 3
          ⟨[⟨0, ⟨0, 0, 0, 1, 1, 0⟩, []⟩, ⟨2, ⟨0, 0, 0, 1, 1, 0⟩, []⟩], none,
            ⟨0, 0, 0, 1, 1, 0⟩, ⟨1, none, some 1⟩⟩ 0 0 0 = .expired)
    ∧ ((2 : ℚ) - 1 ≤ (if (0 : ℚ) = -1 then (2 : ℚ) else 0) →
      get_simulation_frames (K := ℚ)
          ⟨[⟨0, ⟨0, 0, 0, 1, 1, 0⟩, []⟩, ⟨2, ⟨0, 0, 0, 1, 1, 0⟩, []⟩], none,
            ⟨0, 0, 0, 1, 1, 0⟩, ⟨1, none, some 1⟩⟩ 0 ≠ .expired
      ∧ query_wave_at_point (K := ℚ) (fun z => z) (fun z => z) 3
          ⟨[⟨0, ⟨0, 0, 0, 1, 1, 0⟩, []⟩, ⟨2, ⟨0, 0, 0, 1, 1, 0⟩, []⟩], none,
            ⟨0, 0, 0, 1, 1, 0⟩, ⟨1, none, some 1⟩⟩ 0 0 0 ≠ .expired) :=
  resource_expired_semantics (fun z => z) (fun z => z) 3
    ⟨[⟨0, ⟨0, 0, 0, 1, 1, 0⟩, []⟩, ⟨2, ⟨0, 0, 0, 1, 1, 0⟩, []⟩], none,
      ⟨0, 0, 0, 1, 1, 0⟩, ⟨1, none, some 1⟩⟩ 1 rfl (by decide)
    ⟨2, ⟨0, 0, 0, 1, 1, 0⟩, []⟩ rfl 0 0 0

/-- The first-minimum fold of `argminIdx`, run from a nonempty accumulator,
returns a pair that is the accumulator or a scanned pair and whose value is
minimal among both. -/
theorem argmin_fold_spec :
    ∀ (l : List (ℕ × K)) (b : ℕ × K),
      ∃ r, l.foldl (fun acc p =>
        match acc with
        | none => some p
        | some b => if p.2 < b.2 then some p else some b) (some b) = some r
        ∧ (r = b ∨ r ∈ l) ∧ r.2 ≤ b.2 ∧ ∀ p ∈ l, r.2 ≤ p.2 := by
  intro l
  induction l with
  | nil =>
    intro b
    exact ⟨b, rfl, Or.inl rfl, le_refl _, by simp⟩
  | cons x xs ih =>
    intro b
    rw [List.foldl_cons]
    by_cases h : x.2 < b.2
    · obtain ⟨r, h1, h2, h3, h4⟩ := ih x
      refine ⟨r, by simpa [h] using h1, ?_, le_trans h3 (le_of_lt h), ?_⟩
      · rcases h2 with h2 | h2
        · exact Or.inr (by rw [h2]; exact List.mem_cons_self x xs)
        · exact Or.inr (List.mem_cons_of_mem x h2)
      · intro p hp
        rcases List.mem_cons.mp hp with hp | hp
        · rw [hp]; exact h3
        · exact h4 p hp
    · obtain ⟨r, h1, h2, h3, h4⟩ := ih b
      refine ⟨r, by simpa [h] using h1, ?_, h3, ?_⟩
      · rcases h2 with h2 | h2
        · exact Or.inl h2
        · exact Or.inr (List.mem_cons_of_mem x h2)
      · intro p hp
        rcases List.mem_cons.mp hp with hp | hp
        · rw [hp]; exact le_trans h3 (not_lt.mp h)
        · exact h4 p hp

/-- On a nonempty list, `argminIdx` returns an in-range index whose value is
minimal. -/
theorem argminIdx_spec (l : List K) (hne : l ≠ []) :
    argminIdx l < l.length
    ∧ ∀ j, j < l.length → l.getD (argminIdx l) 0 ≤ l.getD j 0 := by
  cases l with
  | nil => exact absurd rfl hne
  | cons a as =>
    obtain ⟨r, h1, h2, h3, h4⟩ := argmin_fold_spec (as.enumFrom 1) (0, a)
    have hargmin : argminIdx (a :: as) = r.1 := by
      have : argminIdx (a :: as)
          = (((as.enumFrom 1).foldl (fun acc p =>
            match acc with
            | none => some p
            | some b => if p.2 < b.2 then some p else some b)
            (some (0, a))).map Prod.fst).getD 0 := rfl
      rw [this, h1]
      rfl
    have hmem : r ∈ (a :: as).enum := by
      rw [List.enum_cons]
      rcases h2 with h2 | h2
      · rw [h2]; exact List.mem_cons_self _ _
      · exact List.mem_cons_of_mem _ h2
    have hqr : (a :: as)[r.1]? = some r.2 := by
      have := List.mk_mem_enum_iff_getElem?.mp (by
        rw [show ((r.1, r.2) : ℕ × K) = r from rfl]; exact hmem)
      exact this
    obtain ⟨hlt, hgetr⟩ := List.getElem?_eq_some_iff.mp hqr
    have hget : (a :: as).getD r.1 0 = r.2 := by
      rw [List.getD_eq_getElem?_getD, hqr]
      rfl
    refine ⟨by rw [hargmin]; exact hlt, ?_⟩
    intro j hj
    have hjq : (a :: as)[j]? = some ((a :: as).getD j 0) := by
      rw [List.getElem?_eq_getElem hj, List.getD_eq_getElem?_getD,
        List.getElem?_eq_getElem hj]
      rfl
    have hjm : ((j, (a :: as).getD j 0) : ℕ × K) ∈ (a :: as).enum :=
      List.mk_mem_enum_iff_getElem?.mpr hjq
    rw [hargmin, hget]
    rw [List.enum_cons] at hjm
    rcases List.mem_cons.mp hjm with hjm | hjm
    · have hsnd : (a :: as).getD j 0 = a := congrArg Prod.snd hjm
      rw [hsnd]
      exact h3
    · exact h4 _ hjm

/-- Mapping a pointwise division distributes over the list sum. -/
theorem sum_map_div {α : Type} (f : α → K) (c : K) :
    ∀ l : List α, (l.map fun i => f i / c).sum = (l.map f).sum / c := by
  intro l
  induction l with
  | nil => simp
  | cons x xs ih => simp [ih, add_div]

/-- Zipping a list with its own image and consuming the pairs is a plain
map. -/
theorem zip_map_self_eq {α β γ : Type} (g : α → β) (h : α → β → γ) :
    ∀ l : List α,
      ((l.zip (l.map g)).map fun pr => h pr.1 pr.2)
        = l.map fun a => h a (g a) := by
  intro l
  induction l with
  | nil => rfl
  | cons x xs ih => simp [ih]

/-- Consuming the zip of the kept indices with their normalized weights is
the same as mapping the weighted term over the kept indices directly. -/
theorem zip_weight_map_eq (values : List K) (w : ℕ → K) (W : K) :
    ∀ sel : List ℕ,
      ((sel.zip (sel.map fun i => w i / W)).map fun pr =>
        values.getD pr.1 0 * pr.2)
        = sel.map fun i => values.getD i 0 * (w i / W) := by
  intro sel
  induction sel with
  | nil => rfl
  | cons x xs ih =>
    simp only [List.getD_eq_getElem?_getD] at ih ⊢
    simp [ih]

/-- Every `getD`-read of the distance list of `bilinear_interpolation` is
nonnegative when the square-root interpretation is nonnegative. -/
theorem distances_getD_nonneg (sqrt : K → K) (hsq : ∀ z, 0 ≤ sqrt z)
    (x y : K) (grid_points : List (GridPoint K)) (i : ℕ) :
    0 ≤ (grid_points.map fun p =>
      sqrt ((p.x - x) ^ 2 + (p.y - y) ^ 2)).getD i 0 := by
  by_cases h : i < (grid_points.map fun p =>
      sqrt ((p.x - x) ^ 2 + (p.y - y) ^ 2)).length
  · rw [List.getD_eq_getElem?_getD, List.getElem?_eq_getElem h]
    rw [List.length_map] at h
    rw [List.getElem_map]
    exact hsq _
  · rw [List.getD_eq_getElem?_getD, List.getElem?_eq_none (by omega)]
    rfl

/-- The index list `argsortIdx l` is a permutation of `0, …, l.length-1`
sorted by the corresponding values of `l`. -/
theorem argsortIdx_spec (l : List K) :
    List.Perm (argsortIdx l) (List.range l.length)
    ∧ (argsortIdx l).Pairwise (fun i j => l.getD i 0 ≤ l.getD j 0) := by
  haveI : IsTotal ℕ (fun i j => l.getD i 0 ≤ l.getD j 0) :=
    ⟨fun _ _ => le_total _ _⟩
  haveI : IsTrans ℕ (fun i j => l.getD i 0 ≤ l.getD j 0) :=
    ⟨fun _ _ _ h1 h2 => le_trans h1 h2⟩
  exact ⟨List.perm_insertionSort _ _, List.sorted_insertionSort _ _⟩

/-- The 4 indices kept by `bilinear_interpolation` point at values no larger
than the value at any discarded in-range index. -/
theorem argsort_take4_nearest (l : List K) (i j : ℕ)
    (hi : i ∈ (argsortIdx l).take 4) (hj : j < l.length)
    (hjn : j ∉ (argsortIdx l).take 4) :
    l.getD i 0 ≤ l.getD j 0 := by
  obtain ⟨hperm, hsorted⟩ := argsortIdx_spec l
  have hjmem : j ∈ argsortIdx l := hperm.mem_iff.mpr (List.mem_range.mpr hj)
  have hjdrop : j ∈ (argsortIdx l).drop 4 := by
    have hsplit : j ∈ (argsortIdx l).take 4 ++ (argsortIdx l).drop 4 := by
      rw [List.take_append_drop]
      exact hjmem
    rcases List.mem_append.mp hsplit with h | h
    · exact absurd h hjn
    · exact h
  exact hsorted.rel_of_mem_take_of_mem_drop hi hjdrop

/-- The kept index list has length exactly 4 when at least 4 grid points
exist. -/
theorem argsort_take4_length (l : List K) (h : 4 ≤ l.length) :
    ((argsortIdx l).take 4).length = 4 := by
  rw [List.length_take, argsortIdx, List.length_insertionSort,
    List.length_range]
  omega

/-- C9: spatial interpolation contract of `query_point` — the query
(lon, lat) is converted to local coordinates using the arithmetic mean of
all grid points' lon/lat as origin (the conversion target `xy` below); with
fewer than 4 grid points the result is exactly the nearest point's value
(the first index minimizing the Euclidean distance list `d`); otherwise it
is the weighted average over the 4 nearest grid points with weights
`1/(distance + ε)` (`ε = 1e-10`) normalized to sum to 1 — the kept indices
are nearest in the sense that their distances are at most the distance at
every discarded in-range index.  Stated for every nonnegative
interpretation of `sqrt`, hence for the real one. -/
theorem query_point_spatial_contract (cos sqrt : K → K) (pi : K)
    (hsq : ∀ z, 0 ≤ sqrt z) (g : WaveGrid K) (lon lat t : K)
    (xy : K × K)
    (hxy : xy = lonlat_to_xy cos pi lon lat
      ((g.grid_points.map GridPoint.lon).sum / (g.grid_points.length : K))
      ((g.grid_points.map GridPoint.lat).sum / (g.grid_points.length : K)))
    (d : List K)
    (hd : d = g.grid_points.map fun p =>
      sqrt ((p.x - xy.1) ^ 2 + (p.y - xy.2) ^ 2)) :
    query_point cos sqrt pi g lon lat t
      = bilinear_interpolation sqrt xy.1 xy.2 g.grid_points
          (timeInterpValues g t)
    ∧ (g.grid_points.length < 4 → g.grid_points ≠ [] →
        query_point cos sqrt pi g lon lat t
          = (timeInterpValues g t).getD (argminIdx d) 0
        ∧ argminIdx d < d.length
        ∧ ∀ j, j < d.length → d.getD (argminIdx d) 0 ≤ d.getD j 0)
    ∧ (4 ≤ g.grid_points.length →
        ((argsortIdx d).take 4).length = 4
        ∧ query_point cos sqrt pi g lon lat t
            = (((argsortIdx d).take 4).map fun i =>
                (timeInterpValues g t).getD i 0 *
                  ((1 / (d.getD i 0 + 1 / 10000000000)) /
                    (((argsortIdx d).take 4).map fun j =>
                      1 / (d.getD j 0 + 1 / 10000000000)).sum)).sum
        ∧ (((argsortIdx d).take 4).map fun i =>
            (1 / (d.getD i 0 + 1 / 10000000000)) /
              (((argsortIdx d).take 4).map fun j =>
                1 / (d.getD j 0 + 1 / 10000000000)).sum).sum = 1
        ∧ ∀ i ∈ (argsortIdx d).take 4, ∀ j, j < d.length →
            j ∉ (argsortIdx d).take 4 → d.getD i 0 ≤ d.getD j 0) := by
  subst hxy
  subst hd
  have hdlen : (g.grid_points.map fun p =>
      sqrt ((p.x - (lonlat_to_xy cos pi lon lat
        ((g.grid_points.map GridPoint.lon).sum /
          (g.grid_points.length : K))
        ((g.grid_points.map GridPoint.lat).sum /
          (g.grid_points.length : K))).1) ^ 2
        + (p.y - (lonlat_to_xy cos pi lon lat
          ((g.grid_points.map GridPoint.lon).sum /
            (g.grid_points.length : K))
          ((g.grid_points.map GridPoint.lat).sum /
            (g.grid_points.length : K))).2) ^ 2)).length
      = g.grid_points.length := List.length_map _ _
  refine ⟨rfl, ?_, ?_⟩
  · intro hlen hne
    have hdne : (g.grid_points.map fun p =>
        sqrt ((p.x - (lonlat_to_xy cos pi lon lat
          ((g.grid_points.map GridPoint.lon).sum /
            (g.grid_points.length : K))
          ((g.grid_points.map GridPoint.lat).sum /
            (g.grid_points.length : K))).1) ^ 2
          + (p.y - (lonlat_to_xy cos pi lon lat
            ((g.grid_points.map GridPoint.lon).sum /
              (g.grid_points.length : K))
            ((g.grid_points.map GridPoint.lat).sum /
              (g.grid_points.length : K))).2) ^ 2)) ≠ [] := by
      intro hcon
      exact hne (List.map_eq_nil.mp hcon)
    obtain ⟨hm1, hm2⟩ := argminIdx_spec _ hdne
    refine ⟨?_, hm1, hm2⟩
    show bilinear_interpolation sqrt _ _ g.grid_points
      (timeInterpValues g t) = _
    rw [bilinear_interpolation]
    rw [if_pos hlen]
  · intro hlen
    have hdlen4 : 4 ≤ (g.grid_points.map fun p =>
        sqrt ((p.x - (lonlat_to_xy cos pi lon lat
          ((g.grid_points.map GridPoint.lon).sum /
            (g.grid_points.length : K))
          ((g.grid_points.map GridPoint.lat).sum /
            (g.grid_points.length : K))).1) ^ 2
          + (p.y - (lonlat_to_xy cos pi lon lat
            ((g.grid_points.map GridPoint.lon).sum /
              (g.grid_points.length : K))
            ((g.grid_points.map GridPoint.lat).sum /
              (g.grid_points.length : K))).2) ^ 2)).length := by
      rw [hdlen]
      exact hlen
    have hwpos : ∀ i, (0 : K) <
        1 / ((g.grid_points.map fun p =>
          sqrt ((p.x - (lonlat_to_xy cos pi lon lat
            ((g.grid_points.map GridPoint.lon).sum /
              (g.grid_points.length : K))
            ((g.grid_points.map GridPoint.lat).sum /
              (g.grid_points.length : K))).1) ^ 2
            + (p.y - (lonlat_to_xy cos pi lon lat
              ((g.grid_points.map GridPoint.lon).sum /
                (g.grid_points.length : K))
              ((g.grid_points.map GridPoint.lat).sum /
                (g.grid_points.length : K))).2) ^ 2)).getD i 0
          + 1 / 10000000000) := by
      intro i
      have h0 := distances_getD_nonneg sqrt hsq
        (lonlat_to_xy cos pi lon lat
          ((g.grid_points.map GridPoint.lon).sum /
            (g.grid_points.length : K))
          ((g.grid_points.map GridPoint.lat).sum /
            (g.grid_points.length : K))).1
        (lonlat_to_xy cos pi lon lat
          ((g.grid_points.map GridPoint.lon).sum /
            (g.grid_points.length : K))
          ((g.grid_points.map GridPoint.lat).sum /
            (g.grid_points.length : K))).2
        g.grid_points i
      have heps : (0 : K) < 1 / 10000000000 := by positivity
      apply one_div_pos.mpr
      linarith
    have hselne : ((argsortIdx (g.grid_points.map fun p =>
        sqrt ((p.x - (lonlat_to_xy cos pi lon lat
          ((g.grid_points.map GridPoint.lon).sum /
            (g.grid_points.length : K))
          ((g.grid_points.map GridPoint.lat).sum /
            (g.grid_points.length : K))).1) ^ 2
          + (p.y - (lonlat_to_xy cos pi lon lat
            ((g.grid_points.map GridPoint.lon).sum /
              (g.grid_points.length : K))
            ((g.grid_points.map GridPoint.lat).sum /
              (g.grid_points.length : K))).2) ^ 2))).take 4) ≠ [] := by
      intro hcon
      have := argsort_take4_length _ hdlen4
      rw [hcon] at this
      exact absurd this (by simp)
    have hWpos : (0 : K) <
        (((argsortIdx (g.grid_points.map fun p =>
          sqrt ((p.x - (lonlat_to_xy cos pi lon lat
            ((g.grid_points.map GridPoint.lon).sum /
              (g.grid_points.length : K))
            ((g.grid_points.map GridPoint.lat).sum /
              (g.grid_points.length : K))).1) ^ 2
            + (p.y - (lonlat_to_xy cos pi lon lat
              ((g.grid_points.map GridPoint.lon).sum /
                (g.grid_points.length : K))
              ((g.grid_points.map GridPoint.lat).sum /
                (g.grid_points.length : K))).2) ^ 2))).take 4).map fun j =>
          1 / ((g.grid_points.map fun p =>
            sqrt ((p.x - (lonlat_to_xy cos pi lon lat
              ((g.grid_points.map GridPoint.lon).sum /
                (g.grid_points.length : K))
              ((g.grid_points.map GridPoint.lat).sum /
                (g.grid_points.length : K))).1) ^ 2
              + (p.y - (lonlat_to_xy cos pi lon lat
                ((g.grid_points.map GridPoint.lon).sum /
                  (g.grid_points.length : K))
                ((g.grid_points.map GridPoint.lat).sum /
                  (g.grid_points.length : K))).2) ^ 2)).getD j 0
            + 1 / 10000000000)).sum := by
      apply List.sum_pos
      · intro x hx
        obtain ⟨j, _, hji⟩ := List.mem_map.mp hx
        rw [← hji]
        exact hwpos j
      · intro hcon
        exact hselne (List.map_eq_nil.mp hcon)
    refine ⟨argsort_take4_length _ hdlen4, ?_, ?_, ?_⟩
    · show bilinear_interpolation sqrt _ _ g.grid_points
        (timeInterpValues g t) = _
      rw [bilinear_interpolation]
      rw [if_neg (not_lt.2 hlen)]
      simp only [List.map_map, Function.comp_def]
      rw [zip_weight_map_eq]
    · rw [sum_map_div]
      exact div_self (ne_of_gt hWpos)
    · intro i hi j hjlt hjn
      rw [hdlen] at hjlt
      exact argsort_take4_nearest _ i j hi (by rw [hdlen]; exact hjlt) hjn

/-- Witness for C9 at `K := ℚ` with `sqrt` interpreted as the constant-zero
(nonnegative) function: a single-point grid, so the nearest-neighbor branch
of the contract is exercised. -/
theorem query_point_spatial_contract_witness :
    query_point (K := ℚ) (fun z => z) (fun _ => 0) 3 c9grid 0 0 0
      = bilinear_interpolation (fun _ => 0) c9xy.1 c9xy.2 c9grid.grid_points
          (timeInterpValues c9grid 0)
    ∧ (c9grid.grid_points.length < 4 → c9grid.grid_points ≠ [] →
        query_point (K := ℚ) (fun z => z) (fun _ => 0) 3 c9grid 0 0 0
          = (timeInterpValues c9grid 0).getD (argminIdx [(0 : ℚ)]) 0
        ∧ argminIdx [(0 : ℚ)] < [(0 : ℚ)].length
        ∧ ∀ j, j < [(0 : ℚ)].length →
            [(0 : ℚ)].getD (argminIdx [(0 : ℚ)]) 0 ≤ [(0 : ℚ)].getD j 0)
    ∧ (4 ≤ c9grid.grid_points.length →
        ((argsortIdx [(0 : ℚ)]).take 4).length = 4
        ∧ query_point (K := ℚ) (fun z => z) (fun _ => 0) 3 c9grid 0 0 0
            = (((argsortIdx [(0 : ℚ)]).take 4).map fun i =>
                (timeInterpValues c9grid 0).getD i 0 *
                  ((1 / ([(0 : ℚ)].getD i 0 + 1 / 10000000000)) /
                    (((argsortIdx [(0 : ℚ)]).take 4).map fun j =>
                      1 / ([(0 : ℚ)].getD j 0 + 1 / 10000000000)).sum)).sum
        ∧ (((argsortIdx [(0 : ℚ)]).take 4).map fun i =>
            (1 / ([(0 : ℚ)].getD i 0 + 1 / 10000000000)) /
              (((argsortIdx [(0 : ℚ)]).take 4).map fun j =>
                1 / ([(0 : ℚ)].getD j 0 + 1 / 10000000000)).sum).sum = 1
        ∧ ∀ i ∈ (argsortIdx [(0 : ℚ)]).take 4, ∀ j, j < [(0 : ℚ)].length →
            j ∉ (argsortIdx [(0 : ℚ)]).take 4 →
              [(0 : ℚ)].getD i 0 ≤ [(0 : ℚ)].getD j 0) :=
  query_point_spatial_contract (fun z => z) (fun _ => 0) 3
    (fun _ => le_refl 0) c9grid 0 0 0 c9xy rfl [(0 : ℚ)] rfl

/-- The produced grid has exactly `n_lat · n_lon` points (lat-major
assembly of `create_grid`). -/
theorem create_grid_length (region : Region ℝ)
    (config : DiscretizationConfig ℝ) :
    (create_grid region config).length
      = (scaledGridCounts region config).2
          * (scaledGridCounts region config).1 := by
  rw [create_grid]
  rw [List.length_flatMap]
  simp [linspace, List.map_map, Function.comp_def]

/-- Naive counts of the counterexample grid: 1 column, 1000 rows. -/
theorem c2_naive_counts : naiveGridCounts c2region c2config = (1, 1000) := by
  unfold naiveGridCounts c2region c2config
  have h1 : ⌊(1 / 2 - 0 : ℝ) / 1⌋ = 0 := by
    rw [Int.floor_eq_iff]
    norm_num
  have h2 : ⌊(999 / 1000 - 0 : ℝ) / (1 / 1000)⌋ = 999 := by
    rw [Int.floor_eq_iff]
    norm_num
  rw [h1, h2]
  rfl

/-- Scaled counts of the counterexample grid: the longitude dimension
floors to 0 and is clamped back to 1, the latitude dimension becomes 100, so
the product 100 escapes the `max_points = 10` bound. -/
theorem c2_scaled_counts : scaledGridCounts c2region c2config = (1, 100) := by
  unfold scaledGridCounts
  rw [c2_naive_counts]
  have hcond : c2config.max_points < 1 * 1000 := by
    norm_num [c2config]
  rw [if_pos hcond]
  have hmp : ((c2config.max_points : ℕ) : ℝ) = 10 := by norm_num [c2config]
  have hsq : Real.sqrt ((c2config.max_points : ℝ) / ((1 * 1000 : ℕ) : ℝ))
      = 1 / 10 := by
    rw [hmp]
    have : ((10 : ℝ) / ((1 * 1000 : ℕ) : ℝ)) = (1 / 10) ^ 2 := by norm_num
    rw [this, Real.sqrt_sq (by norm_num)]
  rw [hsq]
  have h1 : ⌊((1 : ℕ) : ℝ) * (1 / 10)⌋ = 0 := by
    rw [Int.floor_eq_iff]
    norm_num
  have h2 : ⌊((1000 : ℕ) : ℝ) * (1 / 10)⌋ = 100 := by
    rw [Int.floor_eq_iff]
    norm_num
  rw [h1, h2]
  rfl

/-- Counterexample to C2 as stated: for the valid region `c2region`
(`lon_max > lon_min`, `lat_max > lat_min`) and the valid configuration
`c2config` (`dx, dy > 0`, `max_points = 10 ≥ 1`), `create_grid` returns 100
points — the `max(1, ·)` clamp applied after the `sqrt` downscaling floors
the longitude dimension to 0, restores it to 1, and leaves the latitude
dimension at 100, so the product exceeds `max_points`. -/
theorem create_grid_bound_counterexample :
    c2region.lon_min < c2region.lon_max
    ∧ c2region.lat_min < c2region.lat_max
    ∧ 0 < c2config.dx
    ∧ 0 < c2config.dy
    ∧ 1 ≤ c2config.max_points
    ∧ c2config.max_points < (create_grid c2region c2config).length := by
  refine ⟨by norm_num [c2region], by norm_num [c2region],
    by norm_num [c2config], by norm_num [c2config],
    by norm_num [c2config], ?_⟩
  rw [create_grid_length, c2_scaled_counts]
  norm_num [c2config]

/-- C2 (amended): `create_grid` returns at most `max_points` grid points for
every valid region (`lon_max > lon_min`, `lat_max > lat_min`) and valid
configuration (`dx, dy > 0`, `max_points ≥ 1`), provided that when the naive
product exceeds `max_points` the `sqrt`-downscaled dimension counts each
floor to at least 1 (hypothesis `hscale`).  Without that proviso the claim
fails: when one downscaled dimension floors to 0, the `max(1, ·)` clamp
restores it to 1 and the bound can be exceeded (see the counterexample). -/
theorem scaled_product_bound (mp n1 n2 : ℕ) (s : ℝ) (hs0 : 0 ≤ s)
    (hT1 : 1 ≤ n1) (hT2 : 1 ≤ n2)
    (hs2 : s ^ 2 = (mp : ℝ) / ((n1 * n2 : ℕ) : ℝ))
    (ha : 1 ≤ ⌊(n1 : ℝ) * s⌋) (hb : 1 ≤ ⌊(n2 : ℝ) * s⌋) :
    (⌊(n2 : ℝ) * s⌋).toNat * (⌊(n1 : ℝ) * s⌋).toNat ≤ mp := by
  have hTpos : (0 : ℝ) < ((n1 * n2 : ℕ) : ℝ) := by
    have h12 : 0 < n1 * n2 := Nat.mul_pos hT1 hT2
    exact_mod_cast h12
  have ca : ((⌊(n1 : ℝ) * s⌋.toNat : ℕ) : ℝ) = ((⌊(n1 : ℝ) * s⌋ : ℤ) : ℝ) := by
    have h0 : (0 : ℤ) ≤ ⌊(n1 : ℝ) * s⌋ := by omega
    exact_mod_cast Int.toNat_of_nonneg h0
  have cb : ((⌊(n2 : ℝ) * s⌋.toNat : ℕ) : ℝ) = ((⌊(n2 : ℝ) * s⌋ : ℤ) : ℝ) := by
    have h0 : (0 : ℤ) ≤ ⌊(n2 : ℝ) * s⌋ := by omega
    exact_mod_cast Int.toNat_of_nonneg h0
  have hfa : ((⌊(n1 : ℝ) * s⌋ : ℤ) : ℝ) ≤ (n1 : ℝ) * s := Int.floor_le _
  have hfb : ((⌊(n2 : ℝ) * s⌋ : ℤ) : ℝ) ≤ (n2 : ℝ) * s := Int.floor_le _
  have ha0 : (0 : ℝ) ≤ ((⌊(n1 : ℝ) * s⌋ : ℤ) : ℝ) := by
    have h0 : (0 : ℤ) ≤ ⌊(n1 : ℝ) * s⌋ := by omega
    exact_mod_cast h0
  have hprod : ((⌊(n2 : ℝ) * s⌋ : ℤ) : ℝ) * ((⌊(n1 : ℝ) * s⌋ : ℤ) : ℝ)
      ≤ (mp : ℝ) := by
    have hmul : ((⌊(n2 : ℝ) * s⌋ : ℤ) : ℝ) * ((⌊(n1 : ℝ) * s⌋ : ℤ) : ℝ)
        ≤ ((n2 : ℝ) * s) * ((n1 : ℝ) * s) :=
      mul_le_mul hfb hfa ha0 (by positivity)
    have heq : ((n2 : ℝ) * s) * ((n1 : ℝ) * s)
        = ((n1 * n2 : ℕ) : ℝ) * s ^ 2 := by
      push_cast
      ring
    have hfinal : ((n1 * n2 : ℕ) : ℝ) * s ^ 2 = (mp : ℝ) := by
      rw [hs2, mul_comm, div_mul_cancel₀ _ (ne_of_gt hTpos)]
    calc ((⌊(n2 : ℝ) * s⌋ : ℤ) : ℝ) * ((⌊(n1 : ℝ) * s⌋ : ℤ) : ℝ)
        ≤ ((n2 : ℝ) * s) * ((n1 : ℝ) * s) := hmul
      _ = ((n1 * n2 : ℕ) : ℝ) * s ^ 2 := heq
      _ = (mp : ℝ) := hfinal
  have hcast : ((⌊(n2 : ℝ) * s⌋.toNat * ⌊(n1 : ℝ) * s⌋.toNat : ℕ) : ℝ)
      ≤ (mp : ℝ) := by
    push_cast
    calc ((⌊(n2 : ℝ) * s⌋.toNat : ℕ) : ℝ) * ((⌊(n1 : ℝ) * s⌋.toNat : ℕ) : ℝ)
        = ((⌊(n2 : ℝ) * s⌋ : ℤ) : ℝ) * ((⌊(n1 : ℝ) * s⌋ : ℤ) : ℝ) := by
          rw [ca, cb]
      _ ≤ (mp : ℝ) := hprod
  exact_mod_cast hcast

/-- C2 (amended): `create_grid` returns at most `max_points` grid points for
every valid region (`lon_max > lon_min`, `lat_max > lat_min`) and valid
configuration (`dx, dy > 0`, `max_points ≥ 1`), provided that when the naive
product exceeds `max_points` the `sqrt`-downscaled dimension counts each
floor to at least 1 (hypothesis `hscale`).  Without that proviso the claim
fails: when one downscaled dimension floors to 0, the `max(1, ·)` clamp
restores it to 1 and the bound can be exceeded (see the counterexample). -/
theorem create_grid_bound_amended (region : Region ℝ)
    (config : DiscretizationConfig ℝ)
    (hlon : region.lon_min < region.lon_max)
    (hlat : region.lat_min < region.lat_max)
    (hdx : 0 < config.dx) (hdy : 0 < config.dy)
    (hmp : 1 ≤ config.max_points)
    (hscale : config.max_points <
        (naiveGridCounts region config).1 * (naiveGridCounts region config).2
      → 1 ≤ ⌊((naiveGridCounts region config).1 : ℝ) *
            Real.sqrt ((config.max_points : ℝ) /
              (((naiveGridCounts region config).1 *
                (naiveGridCounts region config).2 : ℕ) : ℝ))⌋
        ∧ 1 ≤ ⌊((naiveGridCounts region config).2 : ℝ) *
            Real.sqrt ((config.max_points : ℝ) /
              (((naiveGridCounts region config).1 *
                (naiveGridCounts region config).2 : ℕ) : ℝ))⌋) :
    (create_grid region config).length ≤ config.max_points := by
  rw [create_grid_length]
  have hT1 : 1 ≤ (naiveGridCounts region config).1 := le_max_left _ _
  have hT2 : 1 ≤ (naiveGridCounts region config).2 := le_max_left _ _
  by_cases h : config.max_points <
      (naiveGridCounts region config).1 * (naiveGridCounts region config).2
  · obtain ⟨ha, hb⟩ := hscale h
    have key := scaled_product_bound config.max_points
      (naiveGridCounts region config).1 (naiveGridCounts region config).2
      (Real.sqrt ((config.max_points : ℝ) /
        (((naiveGridCounts region config).1 *
          (naiveGridCounts region config).2 : ℕ) : ℝ)))
      (Real.sqrt_nonneg _) hT1 hT2 (Real.sq_sqrt (by positivity)) ha hb
    simp only [scaledGridCounts]
    rw [if_pos h]
    have e1 : max 1 (⌊((naiveGridCounts region config).1 : ℝ) *
        Real.sqrt ((config.max_points : ℝ) /
          (((naiveGridCounts region config).1 *
            (naiveGridCounts region config).2 : ℕ) : ℝ))⌋).toNat
        = (⌊((naiveGridCounts region config).1 : ℝ) *
          Real.sqrt ((config.max_points : ℝ) /
            (((naiveGridCounts region config).1 *
              (naiveGridCounts region config).2 : ℕ) : ℝ))⌋).toNat :=
      max_eq_right (by omega)
    have e2 : max 1 (⌊((naiveGridCounts region config).2 : ℝ) *
        Real.sqrt ((config.max_points : ℝ) /
          (((naiveGridCounts region config).1 *
            (naiveGridCounts region config).2 : ℕ) : ℝ))⌋).toNat
        = (⌊((naiveGridCounts region config).2 : ℝ) *
          Real.sqrt ((config.max_points : ℝ) /
            (((naiveGridCounts region config).1 *
              (naiveGridCounts region config).2 : ℕ) : ℝ))⌋).toNat :=
      max_eq_right (by omega)
    rw [e1, e2]
    exact key
  · simp only [scaledGridCounts]
    rw [if_neg h]
    rw [mul_comm]
    exact not_lt.mp h

/-- Naive counts for the C2 witness grid: a 1°x1° region at 1° spacing
gives a 2x2 lattice. -/
theorem c2wit_naive :
    naiveGridCounts ⟨0, 0, 0, 1, 1, 0⟩ ⟨1, 1, 10⟩ = (2, 2) := by
  unfold naiveGridCounts
  have h1 : ⌊((1 : ℝ) - 0) / 1⌋ = 1 := by
    rw [Int.floor_eq_iff]
    norm_num
  rw [h1]
  rfl

/-- Witness for the amended C2: the 2x2 witness grid respects
`max_points = 10` (no downscaling occurs, so the proviso holds vacuously). -/
theorem create_grid_bound_amended_witness :
    (create_grid ⟨0, 0, 0, 1, 1, 0⟩ ⟨1, 1, 10⟩).length
      ≤ (⟨1, 1, 10⟩ : DiscretizationConfig ℝ).max_points :=
  create_grid_bound_amended ⟨0, 0, 0, 1, 1, 0⟩ ⟨1, 1, 10⟩
    (by norm_num) (by norm_num) (by norm_num) (by norm_num) (by norm_num)
    (fun hcon => absurd hcon (by rw [c2wit_naive]; norm_num))

end WaveEnv
